import Mathlib

/-!
Shallow embedding of the simulation core of `game.py` (repository CodexPower).

Conventions used throughout:
* Python floats are embedded as exact rationals (`ℚ`); Python ints as `ℤ`.
* `math.hypot`/`math.sqrt` values are abstracted by an arbitrary function
  `sq : ℚ → ℚ` passed to the few definitions that scale a movement vector by
  `1 / dist`; every comparison `hypot dx dy < c` from the source is embedded
  exactly as the (real-arithmetic equivalent) squared comparison
  `dx * dx + dy * dy < c * c` (with the squared constant written out).
* Python dicts are embedded as insertion-ordered association lists, matching
  dict iteration order; `random.*` calls are embedded as explicit choice
  parameters (nondeterminism).
-/

set_option maxHeartbeats 4000000

namespace Sim

abbrev Coord := ℤ × ℤ

/-- The library marks `Rat.add`, `Rat.sub`, `Rat.mul`, `Rat.div`, `Rat.neg`
and `Rat.inv` as `@[irreducible]`, which blocks kernel evaluation of
concrete program states. The embedding therefore computes with the
following wrappers, each proved equal (`qadd_eq` …) to the corresponding
library operation, so that statements can be phrased with the ordinary
notation. -/
def qadd (a b : ℚ) : ℚ := mkRat (a.num * b.den + b.num * a.den) (a.den * b.den)

def qneg (a : ℚ) : ℚ := mkRat (-a.num) a.den

def qsub (a b : ℚ) : ℚ := mkRat (a.num * b.den - b.num * a.den) (a.den * b.den)

def qmul (a b : ℚ) : ℚ := mkRat (a.num * b.num) (a.den * b.den)

def qinv (a : ℚ) : ℚ := Rat.divInt a.den a.num

def qdiv (a b : ℚ) : ℚ := qmul a (qinv b)

def qabs (a : ℚ) : ℚ := if a < 0 then qneg a else a

theorem qadd_eq (a b : ℚ) : qadd a b = a + b := (Rat.add_def' a b).symm

theorem qneg_eq (a : ℚ) : qneg a = -a := by
  rw [qneg, ← Rat.neg_mkRat, Rat.mkRat_self]

theorem qsub_eq (a b : ℚ) : qsub a b = a - b := (Rat.sub_def' a b).symm

theorem qmul_eq (a b : ℚ) : qmul a b = a * b := by
  rw [qmul, Rat.mul_def, Rat.normalize_eq_mkRat]

theorem qinv_eq (a : ℚ) : qinv a = a⁻¹ := by
  show Rat.divInt a.den a.num = a.inv
  rw [Rat.inv_def]

theorem qdiv_eq (a b : ℚ) : qdiv a b = a / b := by
  rw [qdiv, qmul_eq, qinv_eq, div_eq_mul_inv]

theorem qabs_eq (a : ℚ) : qabs a = |a| := by
  rw [qabs]
  split
  · rw [qneg_eq]
    exact (abs_of_neg (by assumption)).symm
  · exact (abs_of_nonneg (le_of_not_lt (by assumption))).symm

/-- Python 3 `round` (half to even) followed by `int`, as in `int(round(x))`. -/
def pyRound (q : ℚ) : ℤ :=
  let f : ℤ := ⌊q⌋
  let r : ℚ := qsub q (f : ℚ)
  if r < mkRat 1 2 then f
  else if mkRat 1 2 < r then f + 1
  else if Even f then f else f + 1

/-- Python `max(xs, key=f)` starting from a first element: the first element
attaining the maximal key is kept (later elements replace only when strictly
greater). -/
def pyMaxBy {α : Type} (f : α → ℚ) : α → List α → α
  | a, [] => a
  | a, b :: l => if f a < f b then pyMaxBy f b l else pyMaxBy f a l

/-- Python `min(xs, key=f)` starting from a first element (first minimum kept). -/
def pyMinBy {α : Type} (f : α → ℚ) : α → List α → α
  | a, [] => a
  | a, b :: l => if f b < f a then pyMinBy f b l else pyMinBy f a l

/-- An insertion-ordered string-keyed integer dict (the `inventory`). -/
abbrev Inv := List (String × ℤ)

/-- `d.get(k, 0)` / `d[k]` for the inventory (all reads in the source either
use `.get(k, 0)` or read keys that are always present). -/
def invGet (inv : Inv) (k : String) : ℤ :=
  match inv.find? (fun p => p.1 == k) with
  | some p => p.2
  | none => 0

/-- `d[k] = v` on an insertion-ordered dict: update in place, else append. -/
def invSet (inv : Inv) (k : String) (v : ℤ) : Inv :=
  match inv with
  | [] => [(k, v)]
  | p :: rest => if p.1 == k then (k, v) :: rest else p :: invSet rest k v

/-- `Tile` dataclass from `game.py`. -/
structure Tile where
  x : ℤ
  y : ℤ
  owned : Bool := false
  has_tree : Bool := false
  tree_growth : ℚ := 0
  tree_type : String := "small"
  has_dust : Bool := false
  special : Option String := none
  event : Option String := none
  building : Option String := none
  damage : ℚ := 0
  building_progress : ℚ := 1
  building_tier : ℤ := 1
  deriving DecidableEq

/-- `Task` dataclass from `game.py`. -/
structure Task where
  kind : String
  target : Option Coord := none
  weight : ℚ := 1
  duration : ℚ := 2
  progress : ℚ := 0
  assigned : Bool := false
  deriving DecidableEq

/-- `Quest` dataclass from `game.py`; the `objectives`, `rewards` and
`progress` dicts are insertion-ordered association lists. -/
structure Quest where
  name : String
  objectives : List (String × ℤ)
  rewards : List (String × ℤ)
  progress : List (String × ℤ) := []
  completed : Bool := false
  deriving DecidableEq

/-- `Lumberjack` dataclass from `game.py` (`health` starts as the int 3 but
becomes a float through combat, hence `ℚ`). -/
structure Lumberjack where
  x : ℚ
  y : ℚ
  target : Option Coord := none
  chopping : ℚ := 0
  friendly : Bool := true
  chop_duration : ℚ := 0
  health : ℚ := 3
  task_queue : List Task := []
  current_task : Option Task := none
  deriving DecidableEq

/-- The sparse tile map: a `(x, y) → Tile` dict in insertion order. -/
abbrev TileMap := List (Coord × Tile)

/-- `self.tiles.get((x, y))`. -/
def tmGet (m : TileMap) (p : Coord) : Option Tile :=
  (m.find? (fun e => e.1 == p)).map (·.2)

/-- `self.tiles[(x, y)] = t` (in-place update, else append, as a Python dict). -/
def tmSet (m : TileMap) (p : Coord) (t : Tile) : TileMap :=
  match m with
  | [] => [(p, t)]
  | e :: rest => if e.1 == p then (p, t) :: rest else e :: tmSet rest p t

/-- In Python the `active_quest` attribute usually aliases an element of
`self.quests` or `self.side_quests` (mutations through it write into those
lists); after `load_game` it is a detached fresh object. -/
inductive QuestRef where
  | main (i : ℕ)
  | side (i : ℕ)
  | detached (q : Quest)
  deriving DecidableEq

/-- The mutable simulation state of `GameState` (UI-only fields that no
embedded operation reads or writes, and the two un-persisted spawn timers,
are omitted). -/
structure GameState where
  screen_width : ℤ := 960
  screen_height : ℤ := 720
  tiles : TileMap := []
  inventory : Inv := [("gold", 20), ("wood", 0), ("dust", 0)]
  gold_max : ℤ := 60
  day_time : ℚ := 0
  season_time : ℚ := 0
  weather : String := "Soleil"
  lumberjacks : List Lumberjack := [{ x := 0, y := 0 }]
  active_tool : String := "buy"
  build_selection : ℤ := 0
  active_task : String := "Achat de terrain"
  task_board : List Task := []
  storage_tier : ℤ := 1
  helper_npc : Option Coord := none
  side_quests : List Quest := []
  tree_growth_bonus : ℚ := 0
  wood_bonus : ℚ := 0
  sell_bonus : ℚ := 0
  ai_speed_bonus : ℚ := 0
  camera_offset : ℚ × ℚ := (0, 0)
  quest_npc : Option Coord := none
  quests : List Quest := []
  active_quest : Option QuestRef := none
  deriving DecidableEq

/-- Constants from the top of `game.py`. -/
def SMALL_CHOP : ℚ := 5

def MEDIUM_CHOP : ℚ := 7

def LARGE_CHOP : ℚ := 10

def INITIAL_GRID : ℤ := 6

/-- Shorthand for the three inventory counters. -/
def GameState.gold (s : GameState) : ℤ := invGet s.inventory "gold"

def GameState.wood (s : GameState) : ℤ := invGet s.inventory "wood"

def GameState.dust (s : GameState) : ℤ := invGet s.inventory "dust"

/-- `GameState.get_tile` without creation (`create=False`): a pure read. -/
def GameState.get_tile? (s : GameState) (p : Coord) : Option Tile :=
  tmGet s.tiles p

/-- `GameState.get_tile` with `create=True`: returns the tile and the state
(with a default tile stored when the coordinate was absent). -/
def GameState.get_tile! (s : GameState) (p : Coord) : Tile × GameState :=
  match tmGet s.tiles p with
  | some t => (t, s)
  | none =>
      let t : Tile := { x := p.1, y := p.2 }
      (t, { s with tiles := tmSet s.tiles p t })

/-- `GameState.owned_tiles`. -/
def GameState.owned_tiles (s : GameState) : List Tile :=
  (s.tiles.map (·.2)).filter (·.owned)

/-- `GameState.recompute_storage_capacity`. -/
def GameState.recompute_storage_capacity (s : GameState) : GameState :=
  let barrel_capacity :=
    ((s.tiles.map (·.2)).filter (fun t => t.building == some "barrel")).foldl
      (fun acc t => acc + t.building_tier * 50) 0
  { s with gold_max := 60 + barrel_capacity }

/-- `GameState.add_gold`. -/
def GameState.add_gold (s : GameState) (amount : ℤ) : GameState :=
  { s with inventory := invSet s.inventory "gold" (min s.gold_max (invGet s.inventory "gold" + amount)) }

/-- Python `str.startswith` (char-list prefix test). -/
def strStartsWith (s pre : String) : Bool := pre.data.isPrefixOf s.data

/-- Python `int(x)` on a float: truncation toward zero. -/
def pyInt (q : ℚ) : ℤ := if q < 0 then -⌊qneg q⌋ else ⌊q⌋

/-- Resolve a quest reference against the current state (reading the object
the Python attribute aliases). -/
def questRead (s : GameState) (r : QuestRef) : Option Quest :=
  match r with
  | .main i => s.quests.get? i
  | .side i => s.side_quests.get? i
  | .detached _ =>
      match s.active_quest with
      | some (.detached q) => some q
      | _ => none

/-- Write through a quest reference (mutating the aliased object). -/
def questWrite (s : GameState) (r : QuestRef) (q : Quest) : GameState :=
  match r with
  | .main i => { s with quests := s.quests.set i q }
  | .side i => { s with side_quests := s.side_quests.set i q }
  | .detached _ => { s with active_quest := some (.detached q) }

/-- Granting one entry of a completed quest's reward dict
(`for resource, amount in quest.rewards.items()`): gold is clamped to
`gold_max`, anything else added unclamped. -/
def grantReward (st : GameState) (rw : String × ℤ) : GameState :=
  if rw.1 == "gold" then
    { st with inventory :=
        invSet st.inventory rw.1 (min st.gold_max (invGet st.inventory rw.1 + rw.2)) }
  else
    { st with inventory := invSet st.inventory rw.1 (invGet st.inventory rw.1 + rw.2) }

/-- One iteration of the `for quest in targets` loop of
`GameState.progress_quest`. -/
def questStep (key : String) (s : GameState) (r : QuestRef) : GameState :=
  match questRead s r with
  | none => s
  | some quest =>
      let current := invGet quest.progress key
      match quest.objectives.find? (fun pr => pr.1 == key) with
      | none => s
      | some pr =>
          let quest1 := { quest with progress := invSet quest.progress key (min pr.2 (current + 1)) }
          let s1 := questWrite s r quest1
          if quest1.objectives.all (fun ob => ob.2 ≤ invGet quest1.progress ob.1) then
            let quest2 := { quest1 with completed := true }
            let s2 := questWrite s1 r quest2
            let s3 := quest2.rewards.foldl grantReward s2
            { s3 with active_task := "Quête terminée: " ++ quest2.name }
          else s1

/-- `GameState.progress_quest`: the `targets` list is snapshotted (filtered on
the pre-loop `completed` flags), then processed in order; finally
`active_quest` is re-pointed at the first incomplete quest of `self.quests`
(it is left unchanged when all are complete). -/
def GameState.progress_quest (s : GameState) (key : String) : GameState :=
  let refs : List QuestRef :=
    ((match s.active_quest with | some r => [r] | none => []) ++
        (List.range s.side_quests.length).map QuestRef.side).filter
      (fun r => match questRead s r with | some q => !q.completed | none => false)
  let s1 := refs.foldl (questStep key) s
  match s1.quests.findIdx? (fun q => !q.completed) with
  | some i => { s1 with active_quest := some (.main i) }
  | none => s1

/-- `GameState.clean_tile` (tile identified by its coordinate). -/
def GameState.clean_tile (s : GameState) (p : Coord) : GameState :=
  match s.get_tile? p with
  | none => s
  | some tile =>
      if tile.has_dust then
        let s1 := { s with tiles := tmSet s.tiles p { tile with has_dust := false } }
        let s2 := { s1 with
          inventory := invSet s1.inventory "dust" (invGet s1.inventory "dust" + 1),
          active_task := "Balai : nettoyage" }
        s2.progress_quest "clean_dust"
      else s

/-- `GameState.chop_tree` (tile identified by its coordinate);
`int(math.ceil(x))` is the rational ceiling. -/
def GameState.chop_tree (s : GameState) (p : Coord) : GameState :=
  match s.get_tile? p with
  | none => s
  | some tile =>
      let s1 := { s with tiles := tmSet s.tiles p { tile with has_tree := false, tree_growth := 0 } }
      let base : ℤ :=
        if tile.tree_type == "small" then 1
        else if tile.tree_type == "medium" then 2
        else if tile.tree_type == "large" then 3
        else 1
      let wood_gain : ℤ := ⌈qmul (base : ℚ) (qadd 1 s.wood_bonus)⌉
      let s2 := { s1 with
        inventory := invSet s1.inventory "wood" (invGet s1.inventory "wood" + wood_gain),
        active_task := "Bûcheronnage" }
      s2.progress_quest "cut_tree"

/-- The `base_cost` table of `GameState.place_building` (wood, gold). -/
def base_cost (building : String) : ℤ × ℤ :=
  if building == "cabane" then (5, 8)
  else if building == "atelier" then (8, 12)
  else if building == "tour" then (10, 14)
  else if building == "barrel" then (4, 6)
  else if building == "fence" then (2, 0)
  else if building == "flower" then (1, 0)
  else if building == "fountain" then (6, 10)
  else if building == "color_tile" then (0, 1)
  else if building == "cabane_t2" then (8, 14)
  else if building == "cabane_t3" then (10, 18)
  else if building == "greenhouse" then (6, 8)
  else if building == "sawmill" then (8, 12)
  else if building == "forge" then (10, 14)
  else if building == "market" then (10, 18)
  else if building == "barracks" then (12, 16)
  else if building == "statue" then (4, 12)
  else if building == "garden" then (3, 6)
  else (0, 0)

/-- `GameState.place_building` (tile identified by its coordinate). -/
def GameState.place_building (s : GameState) (p : Coord) (building : String) : GameState :=
  match s.get_tile? p with
  | none => s
  | some tile =>
      if tile.has_tree || tile.has_dust || tile.special.isSome then s
      else if !tile.owned then s
      else
        let need_wood := (base_cost building).1
        let need_gold := (base_cost building).2
        if invGet s.inventory "wood" < need_wood || invGet s.inventory "gold" < need_gold then s
        else
          let upd : Option Tile :=
            if building == "barrel" && tile.building == some "barrel" then
              some { tile with building_tier := tile.building_tier + 1 }
            else if tile.building.isSome then none
            else some { tile with building := some building, building_tier := 1, building_progress := mkRat 35 100 }
          match upd with
          | none => s
          | some tile1 =>
              let tile2 := { tile1 with has_tree := false, tree_growth := 0 }
              let s1 := { s with
                tiles := tmSet s.tiles p tile2,
                inventory :=
                  invSet (invSet s.inventory "wood" (invGet s.inventory "wood" - need_wood))
                    "gold" (invGet s.inventory "gold" - need_gold),
                active_task := "Construit " ++ building }
              let s2 := if strStartsWith building "cabane" then s1.progress_quest "build_cabin" else s1
              let s3 := if building == "atelier" then s2.progress_quest "build_workshop" else s2
              if building == "barrel" then
                let s4 := { s3 with storage_tier := max s3.storage_tier tile2.building_tier }
                s4.recompute_storage_capacity
              else s3

/-- `GameState.upgrade_building` (tile identified by its coordinate). -/
def GameState.upgrade_building (s : GameState) (p : Coord) : GameState :=
  match s.get_tile? p with
  | none => s
  | some tile =>
      if tile.building.isNone then s
      else if 12 ≤ tile.building_tier then s
      else
        let cost_wood := 2 + tile.building_tier * 2
        let cost_gold := 4 + tile.building_tier * 3
        if invGet s.inventory "wood" < cost_wood || invGet s.inventory "gold" < cost_gold then s
        else
          let tile1 := { tile with
            building_tier := tile.building_tier + 1,
            damage := max 0 (qsub tile.damage (mkRat 1 10)),
            building_progress := min 1 (qadd tile.building_progress (mkRat 2 10)) }
          let s1 := { s with
            inventory :=
              invSet (invSet s.inventory "wood" (invGet s.inventory "wood" - cost_wood))
                "gold" (invGet s.inventory "gold" - cost_gold),
            tiles := tmSet s.tiles p tile1,
            active_task := "Amélioration niveau " ++ toString tile1.building_tier }
          let s2 := if tile1.building == some "barrel" then s1.recompute_storage_capacity else s1
          s2.progress_quest "upgrade_building"

/-- `GameState.destroy_building` (tile identified by its coordinate). -/
def GameState.destroy_building (s : GameState) (p : Coord) : GameState :=
  match s.get_tile? p with
  | none => s
  | some tile =>
      if tile.building.isNone then s
      else
        { s with
          tiles := tmSet s.tiles p
            { tile with building := none, building_tier := 1, damage := 0,
                        building_progress := 1, has_dust := false },
          active_task := "Bâtiment détruit" }

/-- `GameState.remove_friend_at`: dismiss the first friendly agent standing
(rounded) on the tile. -/
def GameState.remove_friend_at (s : GameState) (p : Coord) : GameState :=
  match s.lumberjacks.findIdx? (fun l => l.friendly && (pyRound l.x == p.1 && pyRound l.y == p.2)) with
  | some i => { s with lumberjacks := s.lumberjacks.eraseIdx i, active_task := "Ami renvoyé" }
  | none => s

/-- `GameState.sell_resources`; `int(x)` truncates toward zero. -/
def GameState.sell_resources (s : GameState) : GameState :=
  let multiplier : ℚ := qadd 1 s.sell_bonus
  let gained : ℤ :=
    pyInt (qmul ((invGet s.inventory "wood" * 4 + invGet s.inventory "dust" * 2 : ℤ) : ℚ) multiplier)
  let s1 := s.add_gold gained
  { s1 with
    inventory := invSet (invSet s1.inventory "wood" 0) "dust" 0,
    active_task := "Vente confirmée" }

/-- Integer range `[a, b)` as a list, Python `range(a, b)`. -/
def intRange (a b : ℤ) : List ℤ :=
  (List.range (b - a).toNat).map (fun k => a + (k : ℤ))

/-- `GameState.queue_neighbors`: materialise the 8-tile buffer around the
bounding box of the owned tiles. -/
def GameState.queue_neighbors (s : GameState) : GameState :=
  let owned_coords := s.owned_tiles.map (fun t => (t.x, t.y))
  match owned_coords with
  | [] => s
  | c :: _ =>
      let xs := owned_coords.map (·.1)
      let ys := owned_coords.map (·.2)
      let min_x := xs.foldl min c.1
      let max_x := xs.foldl max c.1
      let min_y := ys.foldl min c.2
      let max_y := ys.foldl max c.2
      (intRange (min_x - 8) (max_x + 9)).foldl
        (fun st x =>
          (intRange (min_y - 8) (max_y + 9)).foldl
            (fun st2 y => (st2.get_tile! (x, y)).2) st)
        s

/-- `GameState.apply_unlock_event`; `roll` is the outcome of the
`random.random() < 0.3` / `random.choice` pair (`none` = no event rolled),
overridden by the fixed story events. -/
def GameState.apply_unlock_event (s : GameState) (p : Coord) (roll : Option String) : GameState :=
  match s.get_tile? p with
  | none => s
  | some tile =>
      let story : Option String :=
        if p = ((3 : ℤ), (0 : ℤ)) then some "ami_bucheron"
        else if p = ((-1 : ℤ), (2 : ℤ)) then some "arbre_or"
        else none
      let evt : Option String := match story with | some e => some e | none => roll
      let tile1 := { tile with event := evt }
      let s1 := { s with tiles := tmSet s.tiles p tile1 }
      match evt with
      | some "ami_bucheron" =>
          let s2 := { s1 with
            lumberjacks := s1.lumberjacks ++
              [({ x := qadd (tile.x : ℚ) (mkRat 2 10), y := qadd (tile.y : ℚ) (mkRat 2 10) } : Lumberjack)] }
          s2.progress_quest "recruit_friend"
      | some "arbre_or" =>
          { s1 with tiles := tmSet s1.tiles p { tile1 with has_tree := true, tree_type := "large" } }
      | some "ennemi" =>
          { s1 with
            tiles := tmSet s1.tiles p { tile1 with has_dust := true },
            lumberjacks := s1.lumberjacks ++
              [{ x := qadd (tile.x : ℚ) (mkRat 2 10), y := qadd (tile.y : ℚ) (mkRat 2 10),
                 friendly := false }] }
      | _ => s1

/-- `GameState.buy_tile` (tile identified by its coordinate; the unlock-event
roll is passed through). Note the neighbour probe uses `get_tile` with
`create=True`, so it materialises the four neighbours even when the purchase
fails for lack of an owned neighbour; the gold guard fires before that. -/
def GameState.buy_tile (s : GameState) (p : Coord) (roll : Option String) : GameState :=
  match s.get_tile? p with
  | none => s
  | some tile =>
      if tile.owned || invGet s.inventory "gold" < 10 then s
      else
        let (n1, s1) := s.get_tile! (p.1 + 1, p.2)
        let (n2, s2) := s1.get_tile! (p.1 - 1, p.2)
        let (n3, s3) := s2.get_tile! (p.1, p.2 + 1)
        let (n4, s4) := s3.get_tile! (p.1, p.2 - 1)
        if n1.owned || n2.owned || n3.owned || n4.owned then
          let s5 := { s4 with
            inventory := invSet s4.inventory "gold" (invGet s4.inventory "gold" - 10),
            tiles := tmSet s4.tiles p { tile with owned := true, tree_growth := 1 },
            active_task := "Achat de terrain" }
          let s6 := s5.apply_unlock_event p roll
          s6.queue_neighbors
        else s4

/-- `GameState.maintain_buildings`; `dustRoll` is the per-tile outcome of
`random.random() < 0.0008`. -/
def GameState.maintain_buildings (s : GameState) (dt : ℚ) (dustRoll : Coord → Bool) : GameState :=
  (s.tiles.map (·.1)).foldl
    (fun st p =>
      match tmGet st.tiles p with
      | none => st
      | some tile =>
          if tile.building.isNone then st
          else
            let decay := qadd (qdiv dt 9000) (if tile.has_dust then qdiv dt 4000 else 0)
            let tile1 := { tile with damage := min 1 (qadd tile.damage decay) }
            let tile2 :=
              if mkRat 4 10 < tile1.damage && dustRoll p then { tile1 with has_dust := true } else tile1
            let tile3 :=
              if tile2.building_progress < 1 then
                { tile2 with building_progress := min 1 (qadd tile2.building_progress (qdiv dt 120)) }
              else tile2
            { st with tiles := tmSet st.tiles p tile3 })
    s

/-- `GameState.apply_building_effects`. -/
def GameState.apply_building_effects (s : GameState) : GameState :=
  let acc := (s.tiles.map (·.2)).foldl
    (fun (acc : ℚ × ℚ × ℚ × ℚ) t =>
      match t.building with
      | none => acc
      | some b =>
          let tier : ℚ := (max 1 t.building_tier : ℤ)
          if b == "greenhouse" then (qadd acc.1 (qmul (mkRat 2 100) tier), acc.2.1, acc.2.2.1, acc.2.2.2)
          else if b == "sawmill" then (acc.1, qadd acc.2.1 (qmul (mkRat 1 10) tier), acc.2.2.1, acc.2.2.2)
          else if b == "market" then (acc.1, acc.2.1, qadd acc.2.2.1 (qmul (mkRat 5 100) tier), acc.2.2.2)
          else if b == "barracks" then (acc.1, acc.2.1, acc.2.2.1, qadd acc.2.2.2 (qmul (mkRat 3 100) tier))
          else if b == "statue" then (acc.1, acc.2.1, acc.2.2.1, qadd acc.2.2.2 (qmul (mkRat 2 100) tier))
          else acc)
    (0, 0, 0, 0)
  { s with
    tree_growth_bonus := acc.1
    wood_bonus := acc.2.1
    sell_bonus := acc.2.2.1
    ai_speed_bonus := min acc.2.2.2 (mkRat 8 10) }

/-- The effect of one firing of `GameState.update_events` (the 22-second
timer gate schedules when this runs and is not part of the state change);
`p` is the randomly chosen owned tile and `evt` the randomly chosen event. -/
def GameState.apply_timed_event (s : GameState) (p : Coord) (evt : String) : GameState :=
  match s.get_tile? p with
  | none => s
  | some tile =>
      if tile.building.isSome then s
      else
        let tile1 := { tile with event := some evt }
        let s1 := { s with tiles := tmSet s.tiles p tile1 }
        if evt == "ami_bucheron" then
          let s2 := { s1 with
            lumberjacks := s1.lumberjacks ++
              [({ x := qadd (tile.x : ℚ) (mkRat 1 10), y := qadd (tile.y : ℚ) (mkRat 1 10) } : Lumberjack)] }
          s2.progress_quest "recruit_friend"
        else if evt == "ennemi" then
          { s1 with
            lumberjacks := s1.lumberjacks ++
              [{ x := qadd (tile.x : ℚ) (mkRat 1 10), y := qadd (tile.y : ℚ) (mkRat 1 10),
                 friendly := false, health := 2 }] }
        else if evt == "arbre_or" then
          { s1 with tiles := tmSet s1.tiles p { tile1 with has_tree := true, tree_type := "large" } }
        else if evt == "fete" then s1.add_gold 4
        else if evt == "visite" then
          { s1 with inventory := invSet s1.inventory "wood" (invGet s1.inventory "wood" + 2) }
        else s1

/-- `GameState.find_storage_tile`: first barrel, else first computer tile,
else the tile at the origin when present. -/
def GameState.find_storage_tile (s : GameState) : Option Tile :=
  match (s.tiles.map (·.2)).find? (fun t => t.building == some "barrel") with
  | some t => some t
  | none =>
      match (s.tiles.map (·.2)).find? (fun t => t.special == some "computer") with
      | some t => some t
      | none => s.get_tile? (0, 0)

/-- The size bonus added to a chop task's base weight of 1 in
`GameState.refresh_task_board` (`{"medium": 0.4, "large": 0.8}.get(t, 0.0)`). -/
def sizeBonus (tree_type : String) : ℚ :=
  if tree_type == "medium" then mkRat 4 10 else if tree_type == "large" then mkRat 8 10 else 0

/-- The per-size chop duration of `GameState.refresh_task_board`
(`{"small": SMALL_CHOP, ...}.get(t, MEDIUM_CHOP)`). -/
def sizeDuration (tree_type : String) : ℚ :=
  if tree_type == "small" then SMALL_CHOP
  else if tree_type == "medium" then MEDIUM_CHOP
  else if tree_type == "large" then LARGE_CHOP
  else MEDIUM_CHOP

/-- The tasks one tile contributes in the per-tile loop of
`GameState.refresh_task_board` (in the source's append order). -/
def tileTasks (tile : Tile) : List Task :=
  (if tile.has_tree && (!tile.has_dust && tile.owned) then
      [{ kind := "chop_tree", target := some (tile.x, tile.y),
         weight := qadd 1 (sizeBonus tile.tree_type),
         duration := sizeDuration tile.tree_type }]
    else []) ++
  (if tile.building.isSome && (mkRat 5 100 < tile.damage || tile.has_dust) then
      [{ kind := "repair_building", target := some (tile.x, tile.y),
         weight := qadd (mkRat 15 10) tile.damage, duration := 3 }]
    else []) ++
  (if tile.building.isSome && tile.building_progress < mkRat 99 100 then
      [{ kind := "assist_construction", target := some (tile.x, tile.y),
         weight := qadd (mkRat 14 10) (qsub 1 tile.building_progress), duration := mkRat 25 10 }]
    else []) ++
  (if tile.owned && (!tile.has_tree && (tile.tree_growth < mkRat 6 10 && tile.building.isNone)) then
      [{ kind := "tend_plants", target := some (tile.x, tile.y),
         weight := qadd (mkRat 8 10) (qsub (mkRat 6 10) tile.tree_growth), duration := mkRat 22 10 }]
    else [])

/-- The frontier test of the patrol branch of `GameState.refresh_task_board`:
an owned tile with a missing or unowned orthogonal neighbour. -/
def tileIsFrontier (m : TileMap) (tile : Tile) : Bool :=
  tile.owned &&
    [((1 : ℤ), (0 : ℤ)), (-1, 0), (0, 1), (0, -1)].any (fun d =>
      match tmGet m (tile.x + d.1, tile.y + d.2) with
      | none => true
      | some nb => !nb.owned)

/-- `GameState.refresh_task_board`. -/
def GameState.refresh_task_board (s : GameState) : GameState :=
  let values := s.tiles.map (·.2)
  let tasks := (values.map tileTasks).flatten
  let patrol_targets := (values.filter (tileIsFrontier s.tiles)).map (fun t => (t.x, t.y))
  let resource_count := invGet s.inventory "wood" + invGet s.inventory "dust"
  let tasks2 :=
    match s.find_storage_tile with
    | some storage =>
        if 4 ≤ resource_count then
          tasks ++ [{ kind := "haul_storage", target := some (storage.x, storage.y),
                      weight := qadd (mkRat 12 10) (qmul (resource_count : ℚ) (mkRat 5 100)),
                      duration := 3 }]
        else tasks
    | none => tasks
  let tasks3 := tasks2 ++ (patrol_targets.take 5).map
    (fun c => { kind := "patrol_fence", target := some c, weight := mkRat 5 10, duration := mkRat 12 10 })
  { s with task_board := tasks3 }

/-- `Game.is_task_valid` (reads only `self.state`). -/
def GameState.is_task_valid (s : GameState) (task : Task) : Bool :=
  if task.kind == "haul_storage" then
    decide (0 < invGet s.inventory "wood" + invGet s.inventory "dust")
  else
    match task.target with
    | none => true
    | some tgt =>
        match s.get_tile? tgt with
        | none => false
        | some tile =>
            if task.kind == "chop_tree" then
              tile.has_tree && (tile.owned && !tile.has_dust)
            else if task.kind == "repair_building" then
              tile.building.isSome && (decide (mkRat 5 100 < tile.damage) || tile.has_dust)
            else if task.kind == "assist_construction" then
              tile.building.isSome && decide (tile.building_progress < 1)
            else if task.kind == "tend_plants" then
              tile.owned && (!tile.has_tree && (decide (tile.tree_growth < 1) && tile.building.isNone))
            else if task.kind == "patrol_fence" then
              tile.owned
            else true

/-- The `priority` closure of `Game.assign_task_to_lumberjack`:
`task.weight - hypot(tx - lx, ty - ly) * 0.05`, with the float `hypot`
magnitude abstracted by `sq` applied to the squared distance. -/
def priority (sq : ℚ → ℚ) (lx ly : ℚ) (task : Task) : ℚ :=
  let t : ℚ × ℚ := match task.target with
    | some c => ((c.1 : ℚ), (c.2 : ℚ))
    | none => (lx, ly)
  qsub task.weight (qmul (sq (qadd (qmul (qsub t.1 lx) (qsub t.1 lx)) (qmul (qsub t.2 ly) (qsub t.2 ly)))) (mkRat 5 100))

/-- Python `max(xs, key=f)` keeping also the position of the (first) maximal
element, so that the source's identity-based `c is not best` filter can be
expressed. -/
def pyMaxWithIdx {α : Type} (f : α → ℚ) : (α × ℕ) → ℕ → List α → α × ℕ
  | p, _, [] => p
  | p, i, b :: l => if f p.1 < f b then pyMaxWithIdx f (b, i) (i + 1) l else pyMaxWithIdx f p (i + 1) l

/-- `Game.assign_task_to_lumberjack`, acting on the agent's value (the
function reads `self.state.task_board` and mutates only the agent): returns
the updated agent and the assigned task. `Task.from_dict(best.to_dict())`
produces a field-equal fresh object, i.e. the value `best` itself; the
identity filter `c is not best` drops exactly the first maximal element. -/
def GameState.assign_task_to_lumberjack (s : GameState) (sq : ℚ → ℚ) (l : Lumberjack) :
    Lumberjack × Option Task :=
  if s.task_board.isEmpty then (l, none)
  else
    match s.task_board.filter s.is_task_valid with
    | [] => (l, none)
    | c :: cs =>
        let prio := priority sq l.x l.y
        let bp := pyMaxWithIdx prio (c, 0) 1 cs
        let task_copy := bp.1
        let pending := (c :: cs).eraseIdx bp.2
        let l1 :=
          if l.task_queue.isEmpty then
            match pending with
            | [] => l
            | d :: ds => { l with task_queue := l.task_queue ++ [pyMaxBy prio d ds] }
          else l
        ({ l1 with current_task := some task_copy, target := task_copy.target }, some task_copy)

/-- `GameState.clear_enemy_event` (the enemy is characterised by its
position, which is all the source reads from it). -/
def GameState.clear_enemy_event (s : GameState) (ex ey : ℚ) : GameState :=
  let p : Coord := (pyRound ex, pyRound ey)
  match s.get_tile? p with
  | some tile =>
      if tile.event == some "ennemi" then
        { s with tiles := tmSet s.tiles p { tile with event := none } }
      else s
  | none => s

/-- `Game.handle_chop_result` (the lumberjack contributes only its
`friendly` flag; the tile is identified by its coordinate). -/
def GameState.handle_chop_result (s : GameState) (friendly : Bool) (p : Coord) : GameState :=
  if friendly then s.chop_tree p
  else
    match s.get_tile? p with
    | none => s
    | some tile =>
        let tile1 := { tile with
          has_tree := false, tree_growth := 0, has_dust := true,
          damage := min 1 (qadd tile.damage (mkRat 4 10)) }
        let s1 := { s with tiles := tmSet s.tiles p tile1 }
        { s1 with
          inventory := invSet s1.inventory "gold" (max 0 (invGet s1.inventory "gold" - 2)),
          active_task := "Ennemi sabote" }

/-- `Lumberjack.next_task`: return the current task, else pop the queue into
`current_task`. -/
def nextTask (l : Lumberjack) : Lumberjack × Option Task :=
  match l.current_task with
  | some t => (l, some t)
  | none =>
      match l.task_queue with
      | [] => (l, none)
      | t :: rest => ({ l with current_task := some t, task_queue := rest }, some t)

/-- Apply a mutation to the agent stored at index `i`. -/
def updAgent (s : GameState) (i : ℕ) (f : Lumberjack → Lumberjack) : GameState :=
  match s.lumberjacks.get? i with
  | some l => { s with lumberjacks := s.lumberjacks.set i (f l) }
  | none => s

/-- Removing the agent at index `j` from the agent list while keeping the
`enemies` alias list (represented by indices into the agent list) in step:
`j` is dropped and the later indices shift down by one. -/
def removeAgentAt (L : List Lumberjack) (en : List ℕ) (j : ℕ) : List Lumberjack × List ℕ :=
  (L.eraseIdx j, (en.filter (fun k => decide (k ≠ j))).map (fun k => if j < k then k - 1 else k))

/-- One friend's turn in the protective first pass of
`Game.update_lumberjacks` (the friend contributes only its position; the
`enemies` list is threaded as indices into the live agent list). -/
def friendAttack (dt : ℚ) (acc : GameState × List ℕ) (fpos : ℚ × ℚ) : GameState × List ℕ :=
  let s := acc.1
  match acc.2 with
  | [] => acc
  | k0 :: ks =>
      let key := fun (k : ℕ) =>
        match s.lumberjacks.get? k with
        | some e => qadd (qabs (qsub e.x fpos.1)) (qabs (qsub e.y fpos.2))
        | none => 0
      let kstar := pyMinBy key k0 ks
      match s.lumberjacks.get? kstar with
      | none => acc
      | some enemy =>
          let dx := qsub enemy.x fpos.1
          let dy := qsub enemy.y fpos.2
          if qadd (qmul dx dx) (qmul dy dy) < mkRat 4 100 then
            let enemy1 := { enemy with health := qsub enemy.health (qmul dt 2) }
            let s1 := { s with lumberjacks := s.lumberjacks.set kstar enemy1 }
            if enemy1.health ≤ 0 then
              let Len := removeAgentAt s1.lumberjacks acc.2 kstar
              let s2 := { s1 with lumberjacks := Len.1 }
              let s3 := s2.clear_enemy_event enemy1.x enemy1.y
              ({ s3 with active_task := "Ennemi neutralisé" }, Len.2)
            else (s1, acc.2)
          else acc

/-- The `# friendly units protect first` pass of `Game.update_lumberjacks`:
the `friends` snapshot is read-only in this pass, so only the positions are
kept. -/
def protectPass (dt : ℚ) (s : GameState) (en : List ℕ) : GameState × List ℕ :=
  ((s.lumberjacks.filter (·.friendly)).map (fun l => (l.x, l.y))).foldl (friendAttack dt) (s, en)

/-- `Game.resolve_task` for the agent at index `i`; `task` is (an alias of)
the agent's `current_task`, `tileAt` the coordinate of `target_tile` when it
exists. -/
def GameState.resolve_task (s : GameState) (dt : ℚ) (i : ℕ) (task : Task) (tileAt : Option Coord) :
    GameState :=
  if task.kind == "chop_tree" then
    match tileAt with
    | some p =>
        match s.get_tile? p with
        | some tile =>
            if tile.has_tree then
              let sA := updAgent s i (fun l =>
                { l with chopping := task.duration, chop_duration := task.duration })
              { sA with active_task := "Bûcheronnage assisté" }
            else updAgent s i (fun l => { l with current_task := none })
        | none => updAgent s i (fun l => { l with current_task := none })
    | none => updAgent s i (fun l => { l with current_task := none })
  else if task.kind == "haul_storage" then
    let task1 := { task with progress := qadd task.progress dt }
    if task1.duration ≤ task1.progress then
      let sB := updAgent s i (fun l => { l with current_task := none })
      { sB with active_task := "Ravitaillement (stock)" }
    else updAgent s i (fun l => { l with current_task := some task1 })
  else if task.kind == "repair_building" && tileAt.isSome then
    let task1 := { task with progress := qadd task.progress dt }
    match tileAt with
    | some p =>
        if task1.duration ≤ task1.progress then
          let s1 := match s.get_tile? p with
            | some tile =>
                let tile1 := { tile with damage := max 0 (qsub tile.damage (mkRat 6 10)), has_dust := false }
                { s with tiles := tmSet s.tiles p tile1 }
            | none => s
          let sB := updAgent s1 i (fun l => { l with current_task := none })
          { sB with active_task := "Réparation" }
        else updAgent s i (fun l => { l with current_task := some task1 })
    | none => s
  else if task.kind == "tend_plants" && tileAt.isSome then
    let task1 := { task with progress := qadd task.progress dt }
    match tileAt with
    | some p =>
        if task1.duration ≤ task1.progress then
          let s1 := match s.get_tile? p with
            | some tile =>
                let growth := min 1 (qadd tile.tree_growth (mkRat 35 100))
                let tile1 := { tile with tree_growth := growth }
                if 1 ≤ growth then
                  let tile2 := { tile1 with has_tree := true, tree_type := "small" }
                  let s0 := { s with tiles := tmSet s.tiles p tile2 }
                  s0.progress_quest "plant_tree"
                else { s with tiles := tmSet s.tiles p tile1 }
            | none => s
          let sB := updAgent s1 i (fun l => { l with current_task := none })
          { sB with active_task := "Entretien des sols" }
        else updAgent s i (fun l => { l with current_task := some task1 })
    | none => s
  else if task.kind == "patrol_fence" then
    let task1 := { task with progress := qadd task.progress dt }
    if task1.duration ≤ task1.progress then
      let sB := updAgent s i (fun l => { l with current_task := none })
      { sB with active_task := "Patrouille clôture" }
    else updAgent s i (fun l => { l with current_task := some task1 })
  else if task.kind == "assist_construction" && tileAt.isSome then
    let task1 := { task with progress := qadd task.progress dt }
    match tileAt with
    | some p =>
        if task1.duration ≤ task1.progress then
          let s1 := match s.get_tile? p with
            | some tile =>
                let tile1 := { tile with
                  building_progress := min 1 (qadd tile.building_progress (mkRat 4 10)),
                  damage := max 0 (qsub tile.damage (mkRat 1 10)) }
                { s with tiles := tmSet s.tiles p tile1 }
            | none => s
          let sB := updAgent s1 i (fun l => { l with current_task := none })
          { sB with active_task := "Aide chantier" }
        else updAgent s i (fun l => { l with current_task := some task1 })
    | none => s
  else updAgent s i (fun l => { l with current_task := none })

/-- Executing the picked task `task` for the agent at index `i` whose
updated record is `lC`: walk towards the target or resolve in place (the
tail of the loop body of `Game.update_lumberjacks`). -/
def taskStep (dt : ℚ) (sq : ℚ → ℚ) (st : GameState × List ℕ) (i : ℕ)
    (lC : Lumberjack) (task : Task) : GameState × List ℕ :=
  let s := st.1
  let en := st.2
  let sC := { s with lumberjacks := s.lumberjacks.set i lC }
  match task.target with
  | some tgt =>
      match sC.get_tile? tgt with
      | none => (updAgent sC i (fun a => { a with current_task := none }), en)
      | some target_tile =>
          if task.kind == "chop_tree" && !target_tile.has_tree then
            (updAgent sC i (fun a => { a with current_task := none }), en)
          else
            let tx : ℚ := (tgt.1 : ℚ)
            let ty : ℚ := (tgt.2 : ℚ)
            let dx := qsub tx lC.x
            let dy := qsub ty lC.y
            let d2 := qadd (qmul dx dx) (qmul dy dy)
            let speed : ℚ := qmul (qadd 1 (qmul task.weight (mkRat 2 10))) (qadd 1 sC.ai_speed_bonus)
            if mkRat 25 10000 < d2 then
              let dist := max (sq d2) (mkRat 1 1000)
              (updAgent sC i (fun a =>
                { a with x := qadd a.x (qmul (qmul (qdiv dx dist) speed) dt),
                         y := qadd a.y (qmul (qmul (qdiv dy dist) speed) dt) }), en)
            else (sC.resolve_task dt i task (some tgt), en)
  | none =>
      let dx := qsub lC.x lC.x
      let dy := qsub lC.y lC.y
      let d2 := qadd (qmul dx dx) (qmul dy dy)
      let speed : ℚ := qmul (qadd 1 (qmul task.weight (mkRat 2 10))) (qadd 1 sC.ai_speed_bonus)
      if mkRat 25 10000 < d2 then
        let dist := max (sq d2) (mkRat 1 1000)
        (updAgent sC i (fun a =>
          { a with x := qadd a.x (qmul (qmul (qdiv dx dist) speed) dt),
                   y := qadd a.y (qmul (qmul (qdiv dy dist) speed) dt) }), en)
      else (sC.resolve_task dt i task none, en)

/-- The body of the `for lumberjack in self.state.lumberjacks` loop of
`Game.update_lumberjacks` for the agent at index `i` (threading the
`enemies` alias list). -/
def processAgent (dt : ℚ) (sq : ℚ → ℚ) (st : GameState × List ℕ) (i : ℕ) : GameState × List ℕ :=
  let s := st.1
  let en := st.2
  match s.lumberjacks.get? i with
  | none => st
  | some l =>
    if 0 < l.chopping then
      let l1 := { l with chopping := qsub l.chopping dt }
      let s1 := { s with lumberjacks := s.lumberjacks.set i l1 }
      if l1.chopping ≤ 0 then
        match l1.target with
        | some tgt =>
            match s1.get_tile? tgt with
            | some _ =>
                let s2 := s1.handle_chop_result l1.friendly tgt
                (updAgent s2 i (fun a => { a with current_task := none }), en)
            | none => (s1, en)
        | none => (s1, en)
      else (s1, en)
    else if l.friendly && !en.isEmpty then
      match en with
      | [] => st
      | k0 :: ks =>
          let key := fun (k : ℕ) =>
            match s.lumberjacks.get? k with
            | some e => qadd (qabs (qsub e.x l.x)) (qabs (qsub e.y l.y))
            | none => 0
          let kstar := pyMinBy key k0 ks
          match s.lumberjacks.get? kstar with
          | none => st
          | some enemy =>
              let dx := qsub enemy.x l.x
              let dy := qsub enemy.y l.y
              let d2 := qadd (qmul dx dx) (qmul dy dy)
              let speed : ℚ := qmul (mkRat 14 10) (qadd 1 s.ai_speed_bonus)
              if d2 < mkRat 1 100 then
                let enemy1 := { enemy with health := qsub enemy.health (qmul dt 3) }
                let s1 := { s with lumberjacks := s.lumberjacks.set kstar enemy1 }
                if enemy1.health ≤ 0 then
                  let Len := removeAgentAt s1.lumberjacks en kstar
                  let s2 := { s1 with lumberjacks := Len.1 }
                  let s3 := s2.clear_enemy_event enemy1.x enemy1.y
                  ({ s3 with active_task := "Ennemi neutralisé" }, Len.2)
                else (s1, en)
              else
                let dist := sq d2
                let l1 := { l with x := qadd l.x (qmul (qmul (qdiv dx dist) speed) dt),
                                   y := qadd l.y (qmul (qmul (qdiv dy dist) speed) dt) }
                ({ s with lumberjacks := s.lumberjacks.set i l1,
                          active_task := "Patrouille de défense" }, en)
    else
      let lt := nextTask l
      let choice :=
        match lt.2 with
        | some t => if s.is_task_valid t then some (lt.1, t) else none
        | none => none
      let picked :=
        match choice with
        | some c => some c
        | none =>
            let lB := { lt.1 with current_task := none }
            let asg := s.assign_task_to_lumberjack sq lB
            match asg.2 with
            | some t => some (asg.1, t)
            | none => none
      match picked with
      | none =>
          let lB := { lt.1 with current_task := none }
          let asg := s.assign_task_to_lumberjack sq lB
          ({ s with lumberjacks := s.lumberjacks.set i asg.1 }, en)
      | some (lC, task) => taskStep dt sq st i lC task

/-- The second loop of `Game.update_lumberjacks` with CPython list-iterator
semantics: the internal index advances by one each round (so removing an
element at or before the current position skips the element that slid into
the next slot), stopping once the index reaches the live list's length.
`fuel` only bounds the recursion; it starts at the list length, which the
loop can never exceed since every round advances `i` and never grows the
list. -/
def runPass2 (dt : ℚ) (sq : ℚ → ℚ) : ℕ → ℕ → GameState × List ℕ → GameState × List ℕ
  | 0, _, st => st
  | fuel + 1, i, st =>
      if i < st.1.lumberjacks.length then
        runPass2 dt sq fuel (i + 1) (processAgent dt sq st i)
      else st

/-- Indices of the non-friendly agents (`enemies = [l for l in ... if not
l.friendly]`, represented by positions in the live agent list). -/
def enemyIdxs (L : List Lumberjack) : List ℕ :=
  (List.range L.length).filter (fun k => match L.get? k with
    | some l => !l.friendly
    | none => false)

/-- `Game.update_lumberjacks`. -/
def update_lumberjacks (sq : ℚ → ℚ) (s : GameState) (dt : ℚ) : GameState :=
  let en0 := enemyIdxs s.lumberjacks
  let p1 := protectPass dt s en0
  (runPass2 dt sq p1.1.lumberjacks.length 0 p1).1

/-- The JSON document written by `GameState.save_game` (each entry one key
of the `data` dict; tuples/lists of two coordinates are both embedded as
`Coord`, which is the only structural content the JSON round trip keeps). -/
structure SaveData where
  tiles : List Tile
  inventory : Inv
  gold_max : ℤ
  day_time : ℚ
  season_time : ℚ
  weather : String
  screen : ℤ × ℤ
  lumberjacks : List Lumberjack
  active_task : String
  active_tool : String
  build_selection : ℤ
  task_board : List Task
  storage_tier : ℤ
  camera_offset : ℚ × ℚ
  quests : List Quest
  active_quest : Option Quest
  quest_npc : Option Coord
  helper_npc : Option Coord
  side_quests : List Quest
  deriving DecidableEq

/-- `Game.serialize_lumberjack`: `asdict` keeps every field and the
`task_queue`/`current_task` entries are re-serialised in place, so the
record is kept whole. -/
def serialize_lumberjack (l : Lumberjack) : Lumberjack := l

/-- `Game.deserialize_lumberjack`: the seven scalar fields pass through the
`known_keys` filter into the constructor and the queue and current task are
reattached, reconstructing the full record. -/
def deserialize_lumberjack (l : Lumberjack) : Lumberjack :=
  { x := l.x, y := l.y, target := l.target, chopping := l.chopping,
    friendly := l.friendly, chop_duration := l.chop_duration, health := l.health,
    task_queue := l.task_queue, current_task := l.current_task }

/-- `GameState.save_game` (the `data` dict; the file write is outside the
simulation state). -/
def GameState.save_game (s : GameState) : SaveData :=
  { tiles := s.tiles.map (·.2)
    inventory := s.inventory
    gold_max := s.gold_max
    day_time := s.day_time
    season_time := s.season_time
    weather := s.weather
    screen := (s.screen_width, s.screen_height)
    lumberjacks := s.lumberjacks.map serialize_lumberjack
    active_task := s.active_task
    active_tool := s.active_tool
    build_selection := s.build_selection
    task_board := s.task_board
    storage_tier := s.storage_tier
    camera_offset := s.camera_offset
    quests := s.quests
    active_quest := (match s.active_quest with | some r => questRead s r | none => none)
    quest_npc := s.quest_npc
    helper_npc := s.helper_npc
    side_quests := s.side_quests }

/-- Mark the tile at `p` with special marker `sp`, creating it if missing
(`self.get_tile(*coords).special = sp`). -/
def setSpecialAt (s : GameState) (p : Coord) (sp : String) : GameState :=
  let ts := s.get_tile! p
  { ts.2 with tiles := tmSet ts.2.tiles p { ts.1 with special := some sp } }

/-- `GameState.load_game` applied to a parsed save document (`s` is the
receiving instance, supplying the fallbacks the source reads from `self`). -/
def GameState.load_game (s : GameState) (data : SaveData) : GameState :=
  let s1 := { s with
    tiles := data.tiles.map (fun (t : Tile) => (((t.x, t.y) : Coord), t)),
    inventory := data.inventory,
    gold_max := data.gold_max,
    day_time := data.day_time,
    season_time := data.season_time,
    weather := data.weather,
    screen_width := data.screen.1,
    screen_height := data.screen.2,
    lumberjacks :=
      (if data.lumberjacks.isEmpty then [({ x := 0, y := 0 } : Lumberjack)]
       else data.lumberjacks.map deserialize_lumberjack),
    active_task := data.active_task,
    active_tool := data.active_tool,
    build_selection := data.build_selection,
    task_board := data.task_board,
    storage_tier := data.storage_tier,
    camera_offset := data.camera_offset,
    quest_npc := data.quest_npc,
    quests := (if data.quests.isEmpty then s.quests else data.quests),
    helper_npc := (match data.helper_npc with | some p => some p | none => s.helper_npc),
    side_quests := (if data.side_quests.isEmpty then s.side_quests else data.side_quests) }
  let s2 :=
    match data.active_quest with
    | some q => { s1 with active_quest := some (.detached q) }
    | none =>
        if s1.quests.isEmpty then s1 else { s1 with active_quest := some (.main 0) }
  let s3 := match s2.quest_npc with
    | some p => setSpecialAt s2 p "quest"
    | none => s2
  let s4 := match s3.helper_npc with
    | some p => setSpecialAt s3 p "guide"
    | none => s3
  (s4.recompute_storage_capacity).queue_neighbors

/-- The five fixed main quests created by `load_or_init_tiles`. -/
def initQuests : List Quest :=
  [{ name := "Bûcheron en herbe", objectives := [("cut_tree", 10)], rewards := [("gold", 10), ("wood", 5)] },
   { name := "Nettoyage du camp", objectives := [("clean_dust", 20)], rewards := [("gold", 12)] },
   { name := "Architecte", objectives := [("build_cabin", 3)], rewards := [("gold", 18), ("wood", 6)] },
   { name := "Gardien du savoir", objectives := [("upgrade_building", 4)], rewards := [("gold", 24)] },
   { name := "Capitaine", objectives := [("recruit_friend", 2)], rewards := [("wood", 8), ("gold", 16)] }]

/-- The three fixed side quests created by `load_or_init_tiles`. -/
def initSideQuests : List Quest :=
  [{ name := "Couper la forêt", objectives := [("cut_tree", 25)], rewards := [("gold", 30), ("wood", 10)] },
   { name := "Nouvelle flore", objectives := [("plant_tree", 12)], rewards := [("gold", 16)] },
   { name := "Artisanat", objectives := [("build_workshop", 2)], rewards := [("gold", 22)] }]

/-- Fresh-game initialisation: `GameState.__init__` plus the no-save-file
branch of `load_or_init_tiles`; `treeRoll` and `treeKind` are the outcomes
of the per-tile `random.random() < 0.12` and
`random.choice(["small", "medium"])` calls. -/
def initState (treeRoll : Coord → Bool) (treeKind : Coord → String) : GameState :=
  let s0 : GameState := {}
  let initTiles : TileMap :=
    (intRange 0 INITIAL_GRID).foldl
      (fun m y =>
        (intRange 0 INITIAL_GRID).foldl
          (fun m2 x =>
            let owned := decide (1 ≤ x ∧ x ≤ INITIAL_GRID - 2) && decide (1 ≤ y ∧ y ≤ INITIAL_GRID - 2)
            let has_tree := owned && treeRoll (x, y)
            let tree_type := if has_tree then treeKind (x, y) else "small"
            tmSet m2 (x, y)
              { x := x, y := y, owned := owned, has_tree := has_tree,
                tree_growth := 1, tree_type := tree_type })
          m)
      []
  let s1 := { s0 with tiles := initTiles }
  let s2 := setSpecialAt s1 (0, 0) "computer"
  let s3 := setSpecialAt s2 (0, 1) "bed"
  let s4 := { s3 with quest_npc := some (2, 2) }
  let s5 := setSpecialAt s4 (2, 2) "quest"
  let s6 := { s5 with helper_npc := some (-2, 1) }
  let s7 := setSpecialAt s6 (-2, 1) "guide"
  let s8 := { s7 with quests := initQuests, side_quests := initSideQuests,
                      active_quest := some (.main 0) }
  let s9 := (s8.recompute_storage_capacity).queue_neighbors
  { s9 with active_task := "Nouvelle partie" }

/-- One externally triggered state transition of the running game: the
player actions of §6 (each embedded from its `GameState` method) and one
firing of the random-event timer (`update_events`), with every random
outcome carried as explicit data. -/
inductive Op where
  | buy (p : Coord) (roll : Option String)
  | place (p : Coord) (building : String)
  | upgrade (p : Coord)
  | destroy (p : Coord)
  | sell
  | timedEvent (p : Coord) (evt : String)
  deriving DecidableEq

/-- Apply an operation; `none` marks an infeasible nondeterministic choice
(an unlock roll outside `random.choice`'s domain, or a timed event on a tile
`update_events` could not have drawn). The player actions themselves are
total: failure is a silent no-op in the source. -/
def opApply (o : Op) (s : GameState) : Option GameState :=
  match o with
  | .buy p roll =>
      if roll.all (fun e => ["ennemi", "arbre_or", "ami_bucheron"].contains e) then
        some (s.buy_tile p roll)
      else none
  | .place p b => some (s.place_building p b)
  | .upgrade p => some (s.upgrade_building p)
  | .destroy p => some (s.destroy_building p)
  | .sell => some s.sell_resources
  | .timedEvent p evt =>
      if (s.get_tile? p).any (·.owned) &&
          ["ennemi", "ami_bucheron", "arbre_or", "fete", "visite"].contains evt then
        some (s.apply_timed_event p evt)
      else none

/-- States reachable from `a` by a sequence of operations. -/
inductive Reach : GameState → GameState → Prop where
  | refl (s : GameState) : Reach s s
  | tail {a b c : GameState} {o : Op} (h1 : Reach a b) (h2 : opApply o b = some c) : Reach a c

/-- Run a whole operation list (`none` as soon as a choice is infeasible). -/
def runOps (s : GameState) : List Op → Option GameState
  | [] => some s
  | o :: rest =>
      match opApply o s with
      | some s1 => runOps s1 rest
      | none => none

/-! ### Helper lemmas -/

theorem foldl_preserves {α β : Type} (P : α → Prop) (f : α → β → α)
    (h : ∀ a b, P a → P (f a b)) : ∀ (l : List β) (a : α), P a → P (l.foldl f a) := by
  intro l
  induction l with
  | nil => exact fun a ha => ha
  | cons x xs ih => exact fun a ha => ih _ (h a x ha)

theorem invGet_invSet_self (inv : Inv) (k : String) (v : ℤ) :
    invGet (invSet inv k v) k = v := by
  induction inv with
  | nil => simp [invSet, invGet, List.find?]
  | cons p rest ih =>
      by_cases h : p.1 = k
      · have hb : (p.1 == k) = true := by simpa using h
        simp [invSet, invGet, List.find?, hb]
      · have hb : (p.1 == k) = false := by simpa using h
        simpa [invSet, invGet, List.find?, hb] using ih

theorem invGet_invSet_other (inv : Inv) (k k' : String) (v : ℤ) (hk : k' ≠ k) :
    invGet (invSet inv k v) k' = invGet inv k' := by
  have hkk : (k == k') = false := by simpa using Ne.symm hk
  induction inv with
  | nil => simp [invSet, invGet, List.find?, hkk]
  | cons p rest ih =>
      by_cases h : p.1 = k
      · have hb : (p.1 == k) = true := by simpa using h
        have hb2 : (p.1 == k') = false := by
          simp only [h]
          simpa using Ne.symm hk
        simp [invSet, invGet, List.find?, hb, hb2, hkk]
      · have hb : (p.1 == k) = false := by simpa using h
        by_cases h2 : p.1 = k'
        · have hb2 : (p.1 == k') = true := by simpa using h2
          simp [invSet, invGet, List.find?, hb, hb2]
        · have hb2 : (p.1 == k') = false := by simpa using h2
          simpa [invSet, invGet, List.find?, hb, hb2] using ih

theorem tmGet_tmSet_self (m : TileMap) (p : Coord) (t : Tile) :
    tmGet (tmSet m p t) p = some t := by
  induction m with
  | nil => simp [tmSet, tmGet, List.find?]
  | cons e rest ih =>
      by_cases h : e.1 = p
      · have hb : (e.1 == p) = true := by simpa using h
        simp [tmSet, tmGet, List.find?, hb]
      · have hb : (e.1 == p) = false := by simpa using h
        simpa [tmSet, tmGet, List.find?, hb] using ih

theorem tmGet_tmSet_other (m : TileMap) (p q : Coord) (t : Tile) (hpq : q ≠ p) :
    tmGet (tmSet m p t) q = tmGet m q := by
  have hpqb : (p == q) = false := by simpa using Ne.symm hpq
  induction m with
  | nil => simp [tmSet, tmGet, List.find?, hpqb]
  | cons e rest ih =>
      by_cases h : e.1 = p
      · have hb : (e.1 == p) = true := by simpa using h
        have hb2 : (e.1 == q) = false := by
          simp only [h]
          simpa using Ne.symm hpq
        simp [tmSet, tmGet, List.find?, hb, hb2, hpqb]
      · have hb : (e.1 == p) = false := by simpa using h
        by_cases h2 : e.1 = q
        · have hb2 : (e.1 == q) = true := by simpa using h2
          simp [tmSet, tmGet, List.find?, hb, hb2]
        · have hb2 : (e.1 == q) = false := by simpa using h2
          simpa [tmSet, tmGet, List.find?, hb, hb2] using ih

theorem tmSet_self (m : TileMap) (p : Coord) (t : Tile) (h : tmGet m p = some t) :
    tmSet m p t = m := by
  induction m with
  | nil => simp [tmGet, List.find?] at h
  | cons e rest ih =>
      by_cases he : e.1 = p
      · have hb : (e.1 == p) = true := by simpa using he
        simp only [tmGet, List.find?, hb, Option.map_some'] at h
        cases h
        simp only [tmSet, hb, if_true]
        rw [← he]
      · have hb : (e.1 == p) = false := by simpa using he
        simp only [tmGet, List.find?, hb] at h
        simp only [tmSet, hb, Bool.false_eq_true, if_false]
        rw [ih h]

/-- `questWrite` never touches the economy, the map or the agents. -/
theorem questWrite_frame (s : GameState) (r : QuestRef) (q : Quest) :
    (questWrite s r q).gold_max = s.gold_max ∧ (questWrite s r q).tiles = s.tiles ∧
      (questWrite s r q).lumberjacks = s.lumberjacks ∧
      (questWrite s r q).inventory = s.inventory := by
  cases r <;> simp [questWrite]

/-- `grantReward` only changes the inventory. -/
theorem grantReward_frame (st : GameState) (rw : String × ℤ) :
    (grantReward st rw).gold_max = st.gold_max ∧ (grantReward st rw).tiles = st.tiles ∧
      (grantReward st rw).lumberjacks = st.lumberjacks := by
  unfold grantReward
  split <;> exact ⟨rfl, rfl, rfl⟩

/-- `questStep` never touches `gold_max`, the tile map or the agents. -/
theorem questStep_frame (key : String) (s : GameState) (r : QuestRef) :
    (questStep key s r).gold_max = s.gold_max ∧ (questStep key s r).tiles = s.tiles ∧
      (questStep key s r).lumberjacks = s.lumberjacks := by
  have hfold : ∀ (q1 q2 : Quest) (rws : List (String × ℤ)),
      (rws.foldl grantReward (questWrite (questWrite s r q1) r q2)).gold_max = s.gold_max ∧
      (rws.foldl grantReward (questWrite (questWrite s r q1) r q2)).tiles = s.tiles ∧
      (rws.foldl grantReward (questWrite (questWrite s r q1) r q2)).lumberjacks = s.lumberjacks := by
    intro q1 q2 rws
    refine foldl_preserves
      (fun u => u.gold_max = s.gold_max ∧ u.tiles = s.tiles ∧ u.lumberjacks = s.lumberjacks)
      grantReward ?_ rws _ ?_
    · intro a b hp
      have h := grantReward_frame a b
      exact ⟨h.1.trans hp.1, h.2.1.trans hp.2.1, h.2.2.trans hp.2.2⟩
    · have h1 := questWrite_frame s r q1
      have h2 := questWrite_frame (questWrite s r q1) r q2
      exact ⟨h2.1.trans h1.1, h2.2.1.trans h1.2.1, h2.2.2.1.trans h1.2.2.1⟩
  unfold questStep
  cases hq : questRead s r with
  | none => exact ⟨rfl, rfl, rfl⟩
  | some quest =>
      simp only
      cases hf : quest.objectives.find? (fun pr => pr.1 == key) with
      | none => exact ⟨rfl, rfl, rfl⟩
      | some pr =>
          simp only
          split
          · exact ⟨(hfold _ _ _).1, (hfold _ _ _).2.1, (hfold _ _ _).2.2⟩
          · have h := fun q => questWrite_frame s r q
            exact ⟨(h _).1, (h _).2.1, (h _).2.2.1⟩

/-- `GameState.progress_quest` never touches `gold_max`, the tile map or the
agents. -/
theorem progress_quest_frame (s : GameState) (key : String) :
    (s.progress_quest key).gold_max = s.gold_max ∧ (s.progress_quest key).tiles = s.tiles ∧
      (s.progress_quest key).lumberjacks = s.lumberjacks := by
  have hfold := fun l => foldl_preserves
    (fun u : GameState => u.gold_max = s.gold_max ∧ u.tiles = s.tiles ∧
      u.lumberjacks = s.lumberjacks)
    (questStep key)
    (fun a b hp => by
      have h := questStep_frame key a b
      exact ⟨h.1.trans hp.1, h.2.1.trans hp.2.1, h.2.2.trans hp.2.2⟩)
    l s ⟨rfl, rfl, rfl⟩
  have hconc : ∀ s1 : GameState,
      (s1.gold_max = s.gold_max ∧ s1.tiles = s.tiles ∧ s1.lumberjacks = s.lumberjacks) →
      ((match s1.quests.findIdx? (fun q => !q.completed) with
        | some i => { s1 with active_quest := some (QuestRef.main i) }
        | none => s1) : GameState).gold_max = s.gold_max ∧
      ((match s1.quests.findIdx? (fun q => !q.completed) with
        | some i => { s1 with active_quest := some (QuestRef.main i) }
        | none => s1) : GameState).tiles = s.tiles ∧
      ((match s1.quests.findIdx? (fun q => !q.completed) with
        | some i => { s1 with active_quest := some (QuestRef.main i) }
        | none => s1) : GameState).lumberjacks = s.lumberjacks := by
    intro s1 h1
    split <;> exact h1
  exact hconc _ (hfold _)

/-- With no active quest and no side quests, `progress_quest` leaves the
inventory (and everything but `active_quest`) unchanged. -/
theorem progress_quest_isolated (s : GameState) (key : String)
    (h1 : s.active_quest = none) (h2 : s.side_quests = []) :
    (s.progress_quest key).inventory = s.inventory := by
  unfold GameState.progress_quest
  rw [h1, h2]
  simp only [List.length_nil, List.range_zero, List.map_nil, List.nil_append,
    List.filter_nil, List.foldl_nil]
  split <;> rfl

/-- One reward grant keeps the gold clamp. -/
theorem grantReward_gold_le (st : GameState) (rw : String × ℤ)
    (h : invGet st.inventory "gold" ≤ st.gold_max) :
    invGet (grantReward st rw).inventory "gold" ≤ (grantReward st rw).gold_max := by
  unfold grantReward
  split
  · rename_i hg
    have hg' : rw.1 = "gold" := by simpa using hg
    rw [hg']
    show invGet (invSet st.inventory "gold" _) "gold" ≤ st.gold_max
    rw [invGet_invSet_self]
    exact min_le_left _ _
  · rename_i hg
    have hg' : rw.1 ≠ "gold" := by simpa using hg
    show invGet (invSet st.inventory rw.1 _) "gold" ≤ st.gold_max
    rw [invGet_invSet_other _ _ _ _ (fun e => hg' e.symm)]
    exact h

/-- `questStep` keeps the gold clamp. -/
theorem questStep_gold_le (key : String) (s : GameState) (r : QuestRef)
    (h : invGet s.inventory "gold" ≤ s.gold_max) :
    invGet (questStep key s r).inventory "gold" ≤ (questStep key s r).gold_max := by
  have hW : ∀ (t : GameState) (q : Quest),
      invGet t.inventory "gold" ≤ t.gold_max →
      invGet (questWrite t r q).inventory "gold" ≤ (questWrite t r q).gold_max := by
    intro t q ht
    have hf := questWrite_frame t r q
    rw [hf.2.2.2, hf.1]
    exact ht
  unfold questStep
  cases hq : questRead s r with
  | none => exact h
  | some quest =>
      simp only
      cases hf : quest.objectives.find? (fun pr => pr.1 == key) with
      | none => exact h
      | some pr =>
          simp only
          split
          · exact foldl_preserves
              (fun u : GameState => invGet u.inventory "gold" ≤ u.gold_max)
              grantReward (fun a b hp => grantReward_gold_le a b hp)
              _ _ (hW _ _ (hW _ _ h))
          · exact hW _ _ h

/-- `progress_quest` keeps the gold clamp. -/
theorem progress_quest_gold_le (s : GameState) (key : String)
    (h : invGet s.inventory "gold" ≤ s.gold_max) :
    invGet (s.progress_quest key).inventory "gold" ≤ (s.progress_quest key).gold_max := by
  have hfold := fun l => foldl_preserves
    (fun u : GameState => invGet u.inventory "gold" ≤ u.gold_max)
    (questStep key) (fun a b hp => questStep_gold_le key a b hp) l s h
  have hconc : ∀ s1 : GameState, invGet s1.inventory "gold" ≤ s1.gold_max →
      invGet ((match s1.quests.findIdx? (fun q => !q.completed) with
        | some i => { s1 with active_quest := some (QuestRef.main i) }
        | none => s1) : GameState).inventory "gold" ≤
      ((match s1.quests.findIdx? (fun q => !q.completed) with
        | some i => { s1 with active_quest := some (QuestRef.main i) }
        | none => s1) : GameState).gold_max := by
    intro s1 h1
    split <;> exact h1
  exact hconc _ (hfold _)

/-! ### C9 -/

/-- The storage-derived gold ceiling `60 + Σ building_tier · 50` over barrel
tiles (the quantity `recompute_storage_capacity` assigns). -/
def barrelCapacity (m : TileMap) : ℤ :=
  ((m.map (·.2)).filter (fun t => t.building == some "barrel")).foldl
    (fun acc t => acc + t.building_tier * 50) 0

theorem recompute_gold_max (s : GameState) :
    (s.recompute_storage_capacity).gold_max = 60 + barrelCapacity s.tiles := rfl

theorem recompute_frame (s : GameState) :
    (s.recompute_storage_capacity).tiles = s.tiles ∧
      (s.recompute_storage_capacity).inventory = s.inventory ∧
      (s.recompute_storage_capacity).active_quest = s.active_quest ∧
      (s.recompute_storage_capacity).side_quests = s.side_quests := ⟨rfl, rfl, rfl, rfl⟩

/-- A state with a tier-1 barrel and a consistent ceiling of 110: destroying
the barrel leaves `gold_max` at 110 while the storage-derived value drops to
60, refuting the claim that the ceiling equals the derived value after every
operation. -/
def c9State : GameState :=
  { tiles := [(((1 : ℤ), (1 : ℤ)), { x := 1, y := 1, owned := true, building := some "barrel" })],
    gold_max := 110 }

/-- C9 is false as stated: from a state whose ceiling is exactly the
storage-derived value, `destroy_building` leaves the ceiling unchanged and
different from the recomputed derived value. -/
theorem C9_counterexample :
    c9State.gold_max = 60 + barrelCapacity c9State.tiles ∧
    (c9State.destroy_building (1, 1)).gold_max ≠
      60 + barrelCapacity (c9State.destroy_building (1, 1)).tiles := by
  constructor
  · decide
  · decide

/-- C9 (amended): `gold_max` equals the storage-derived value after each
operation that recomputes it — `recompute_storage_capacity` itself, a
successful barrel placement, and a successful upgrade of a barrel tile —
while `destroy_building` never touches `gold_max` (leaving it stale until
the next recompute). -/
theorem C9_gold_max_amended (s : GameState) (p : Coord) :
    (s.destroy_building p).gold_max = s.gold_max ∧
    (s.recompute_storage_capacity).gold_max = 60 + barrelCapacity s.tiles ∧
    (s.place_building p "barrel" = s ∨
      (s.place_building p "barrel").gold_max =
        60 + barrelCapacity (s.place_building p "barrel").tiles) ∧
    (∀ tile, s.get_tile? p = some tile → tile.building = some "barrel" →
      (s.upgrade_building p = s ∨
        (s.upgrade_building p).gold_max =
          60 + barrelCapacity (s.upgrade_building p).tiles)) := by
  refine ⟨?_, rfl, ?_, ?_⟩
  · unfold GameState.destroy_building
    cases s.get_tile? p with
    | none => rfl
    | some tile =>
        simp only
        split
        · rfl
        · rfl
  · unfold GameState.place_building
    cases s.get_tile? p with
    | none => exact Or.inl rfl
    | some tile =>
        simp only
        split
        · exact Or.inl rfl
        split
        · exact Or.inl rfl
        split
        · exact Or.inl rfl
        have hsw : strStartsWith "barrel" "cabane" = false := by decide
        have hat : ("barrel" == "atelier") = false := by decide
        have hbb : ("barrel" == "barrel") = true := by decide
        simp only [hsw, hat, hbb, Bool.true_and, Bool.false_eq_true, if_false, if_true]
        split
        · exact Or.inl rfl
        · exact Or.inr rfl
  · intro tile ht hbarrel
    unfold GameState.upgrade_building
    rw [ht]
    simp only [hbarrel, Option.isNone_some, Bool.false_eq_true, if_false]
    split
    · exact Or.inl rfl
    split
    · exact Or.inl rfl
    have hb2 : ((some "barrel" : Option String) == some "barrel") = true := by decide
    simp only [hb2, if_true]
    right
    have h := fun u => progress_quest_frame u "upgrade_building"
    rw [(h _).1, (h _).2.1]
    rfl

theorem C9_gold_max_amended_witness :
    (c9State.destroy_building (1, 1)).gold_max = c9State.gold_max ∧
    (c9State.upgrade_building (1, 1) = c9State ∨
      (c9State.upgrade_building (1, 1)).gold_max =
        60 + barrelCapacity (c9State.upgrade_building (1, 1)).tiles) :=
  ⟨(C9_gold_max_amended c9State (1, 1)).1,
   (C9_gold_max_amended c9State (1, 1)).2.2.2
     { x := 1, y := 1, owned := true, building := some "barrel" } (by decide) (by decide)⟩

/-! ### C8 -/

/-- C8: a tile holding a building at tier 12 (or above) cannot be upgraded —
the operation is the identity on the whole state regardless of resources;
below tier 12, with sufficient resources (and, for the exact gold account,
no quest that could pay out a reward during the call), the upgrade costs
`2 + tier·2` wood and `4 + tier·3` gold and moves damage to
`max 0 (damage - 0.1)`. -/
theorem C8_upgrade_tier_cap (s : GameState) (p : Coord) (tile : Tile)
    (ht : s.get_tile? p = some tile) (hb : tile.building.isSome = true) :
    (12 ≤ tile.building_tier → s.upgrade_building p = s) ∧
    (tile.building_tier < 12 →
      2 + tile.building_tier * 2 ≤ invGet s.inventory "wood" →
      4 + tile.building_tier * 3 ≤ invGet s.inventory "gold" →
      s.active_quest = none → s.side_quests = [] →
      invGet (s.upgrade_building p).inventory "wood"
          = invGet s.inventory "wood" - (2 + tile.building_tier * 2) ∧
      invGet (s.upgrade_building p).inventory "gold"
          = invGet s.inventory "gold" - (4 + tile.building_tier * 3) ∧
      ((s.upgrade_building p).get_tile? p).map Tile.building_tier
          = some (tile.building_tier + 1) ∧
      ((s.upgrade_building p).get_tile? p).map Tile.damage
          = some (max 0 (tile.damage - 0.1))) := by
  have hnotnone : tile.building.isNone = false := by
    cases hbb : tile.building
    · rw [hbb] at hb
      simp at hb
    · rfl
  constructor
  · intro h12
    unfold GameState.upgrade_building
    rw [ht]
    simp only [hnotnone, Bool.false_eq_true, if_false, h12, if_true]
  · intro h12 hw hg hq1 hq2
    unfold GameState.upgrade_building
    rw [ht]
    have h12' : ¬ (12 ≤ tile.building_tier) := not_le.mpr h12
    have hcost : (decide (invGet s.inventory "wood" < 2 + tile.building_tier * 2) ||
        decide (invGet s.inventory "gold" < 4 + tile.building_tier * 3)) = false := by
      simp [not_lt.mpr hw, not_lt.mpr hg]
    simp only [hnotnone, Bool.false_eq_true, if_false, h12', if_true, hcost]
    have hinv : ∀ (u : GameState), u.active_quest = none → u.side_quests = [] →
        (u.progress_quest "upgrade_building").inventory = u.inventory :=
      fun u a b => progress_quest_isolated u "upgrade_building" a b
    have hfr := fun u => progress_quest_frame u "upgrade_building"
    set tile1 : Tile := { tile with
      building_tier := tile.building_tier + 1,
      damage := max 0 (qsub tile.damage (mkRat 1 10)),
      building_progress := min 1 (qadd tile.building_progress (mkRat 2 10)) } with htile1
    set s1 : GameState := { s with
      inventory :=
        invSet (invSet s.inventory "wood" (invGet s.inventory "wood" - (2 + tile.building_tier * 2)))
          "gold" (invGet s.inventory "gold" - (4 + tile.building_tier * 3)),
      tiles := tmSet s.tiles p tile1,
      active_task := "Amélioration niveau " ++ toString tile1.building_tier } with hs1
    have hgoal : ∀ (s2 : GameState), s2.inventory = s1.inventory → s2.tiles = s1.tiles →
        s2.active_quest = s.active_quest → s2.side_quests = s.side_quests →
        invGet (s2.progress_quest "upgrade_building").inventory "wood"
            = invGet s.inventory "wood" - (2 + tile.building_tier * 2) ∧
        invGet (s2.progress_quest "upgrade_building").inventory "gold"
            = invGet s.inventory "gold" - (4 + tile.building_tier * 3) ∧
        (tmGet (s2.progress_quest "upgrade_building").tiles p).map Tile.building_tier
            = some (tile.building_tier + 1) ∧
        (tmGet (s2.progress_quest "upgrade_building").tiles p).map Tile.damage
            = some (max 0 (tile.damage - 0.1)) := by
      intro s2 hi hti ha hsq
      have hinv2 := hinv s2 (ha.trans hq1) (hsq.trans hq2)
      have htiles2 := (hfr s2).2.1
      rw [hinv2, hi, htiles2, hti]
      refine ⟨?_, ?_, ?_, ?_⟩
      · rw [hs1]
        show invGet (invSet (invSet s.inventory "wood" _) "gold" _) "wood" = _
        rw [invGet_invSet_other _ _ _ _ (by decide), invGet_invSet_self]
      · rw [hs1]
        show invGet (invSet (invSet s.inventory "wood" _) "gold" _) "gold" = _
        rw [invGet_invSet_self]
      · rw [hs1]
        show (tmGet (tmSet s.tiles p tile1) p).map Tile.building_tier = _
        rw [tmGet_tmSet_self]
        rfl
      · rw [hs1]
        show (tmGet (tmSet s.tiles p tile1) p).map Tile.damage = _
        rw [tmGet_tmSet_self]
        show some tile1.damage = _
        rw [htile1]
        show some (max 0 (qsub tile.damage (mkRat 1 10))) = _
        rw [qsub_eq]
        norm_num [Rat.mkRat_eq_div]
    split
    · exact hgoal _ (recompute_frame s1).2.1 (recompute_frame s1).1
        (recompute_frame s1).2.2.1 (recompute_frame s1).2.2.2
    · exact hgoal _ rfl rfl rfl rfl

/-- A tile already at tier 12 with abundant resources. -/
def c8StateCap : GameState :=
  { tiles := [(((0 : ℤ), (0 : ℤ)),
      { x := 0, y := 0, owned := true, building := some "cabane", building_tier := 12 })],
    inventory := [("gold", 999), ("wood", 999), ("dust", 0)] }

/-- A damaged tier-1 building with enough resources and no quests. -/
def c8StateUp : GameState :=
  { tiles := [(((0 : ℤ), (0 : ℤ)),
      { x := 0, y := 0, owned := true, building := some "cabane", building_tier := 1,
        damage := mkRat 5 10 })],
    inventory := [("gold", 20), ("wood", 10), ("dust", 0)] }

theorem C8_upgrade_tier_cap_witness :
    c8StateCap.upgrade_building (0, 0) = c8StateCap ∧
    invGet (c8StateUp.upgrade_building (0, 0)).inventory "wood" = 6 ∧
    invGet (c8StateUp.upgrade_building (0, 0)).inventory "gold" = 13 ∧
    ((c8StateUp.upgrade_building (0, 0)).get_tile? (0, 0)).map Tile.building_tier = some 2 ∧
    ((c8StateUp.upgrade_building (0, 0)).get_tile? (0, 0)).map Tile.damage = some (2/5) := by
  refine ⟨?_, ?_⟩
  · exact (C8_upgrade_tier_cap c8StateCap (0, 0)
      { x := 0, y := 0, owned := true, building := some "cabane", building_tier := 12 }
      (by decide) (by decide)).1 (by decide)
  · obtain ⟨h1, h2, h3, h4⟩ := (C8_upgrade_tier_cap c8StateUp (0, 0)
      { x := 0, y := 0, owned := true, building := some "cabane", building_tier := 1,
        damage := mkRat 5 10 }
      (by decide) (by decide)).2 (by decide) (by decide) (by decide) rfl rfl
    refine ⟨h1.trans (by decide), h2.trans (by decide), h3.trans (by decide), h4.trans ?_⟩
    norm_num [Rat.mkRat_eq_div]

/-! ### C7 -/

/-- `get_tile!` (i.e. `get_tile` with `create=True`) only ever adds the
missing key `r` to the map: the inventory is untouched, every other key
reads the same, and present entries survive. -/
theorem get_tile_bang_pres (s : GameState) (r : Coord) :
    ((s.get_tile! r).2).inventory = s.inventory ∧
      (∀ q, q ≠ r → tmGet ((s.get_tile! r).2).tiles q = tmGet s.tiles q) ∧
      (∀ q t, tmGet s.tiles q = some t → tmGet ((s.get_tile! r).2).tiles q = some t) := by
  unfold GameState.get_tile!
  cases hx : tmGet s.tiles r with
  | some t0 => exact ⟨rfl, fun q _ => rfl, fun q t h => h⟩
  | none =>
      refine ⟨rfl, fun q hq => ?_, fun q t h => ?_⟩
      · show tmGet (tmSet s.tiles r _) q = tmGet s.tiles q
        rw [tmGet_tmSet_other _ _ _ _ hq]
      · by_cases hq : q = r
        · rw [hq, hx] at h
          cases h
        · show tmGet (tmSet s.tiles r _) q = some t
          rw [tmGet_tmSet_other _ _ _ _ hq]
          exact h

/-- The value returned by `get_tile!`: the stored tile, else a default tile
(whose `owned` flag is `false`). -/
theorem get_tile_bang_owned (s : GameState) (r : Coord) :
    ((s.get_tile! r).1).owned = ((tmGet s.tiles r).map Tile.owned).getD false := by
  unfold GameState.get_tile!
  cases tmGet s.tiles r <;> rfl

/-- `queue_neighbors` only adds missing buffer tiles: the inventory is
untouched and present entries survive. -/
theorem queue_neighbors_pres (s : GameState) :
    (s.queue_neighbors).inventory = s.inventory ∧
      (∀ q t, tmGet s.tiles q = some t → tmGet (s.queue_neighbors).tiles q = some t) := by
  unfold GameState.queue_neighbors
  dsimp only
  split
  · exact ⟨rfl, fun q t h => h⟩
  · refine foldl_preserves
      (fun st : GameState => st.inventory = s.inventory ∧
        (∀ q t, tmGet s.tiles q = some t → tmGet st.tiles q = some t))
      _ ?_ _ _ ⟨rfl, fun q t h => h⟩
    intro a x ha
    refine foldl_preserves
      (fun st : GameState => st.inventory = s.inventory ∧
        (∀ q t, tmGet s.tiles q = some t → tmGet st.tiles q = some t))
      _ ?_ _ _ ha
    intro b y hb
    have hp := get_tile_bang_pres b (x, y)
    exact ⟨hp.1.trans hb.1, fun q t h => hp.2.2 q t (hb.2 q t h)⟩

/-- C7: with the tile present, unowned and adjacent to an owned tile, the
purchase succeeds exactly when `gold ≥ 10`: with less than 10 gold the call
returns the state unchanged (the gold guard fires before any mutation),
otherwise the tile becomes owned and exactly 10 gold is deducted (stated on
the no-unlock-event roll, away from the two scripted story tiles). -/
theorem C7_buy_tile (s : GameState) (p : Coord) (roll : Option String) (tile : Tile)
    (ht : s.get_tile? p = some tile) (hun : tile.owned = false)
    (hnb : ∃ d ∈ ([(1, 0), (-1, 0), (0, 1), (0, -1)] : List Coord),
      (s.get_tile? (p.1 + d.1, p.2 + d.2)).map Tile.owned = some true) :
    (invGet s.inventory "gold" < 10 → s.buy_tile p roll = s) ∧
    (10 ≤ invGet s.inventory "gold" → p ≠ (3, 0) → p ≠ (-1, 2) →
      ((s.buy_tile p none).get_tile? p).map Tile.owned = some true ∧
      invGet (s.buy_tile p none).inventory "gold" = invGet s.inventory "gold" - 10) := by
  constructor
  · intro hg
    unfold GameState.buy_tile
    rw [ht]
    simp [hun, hg]
  · intro hg hp1 hp2
    unfold GameState.buy_tile
    rw [ht]
    dsimp only
    have hcond : (tile.owned || decide (invGet s.inventory "gold" < 10)) = false := by
      simp [hun, not_lt.mpr hg]
    rw [hcond]
    simp only [Bool.false_eq_true, if_false]
    have hk12 : ((p.1 - 1, p.2) : Coord) ≠ (p.1 + 1, p.2) := by
      intro h
      have h1 : p.1 - 1 = p.1 + 1 := congrArg Prod.fst h
      omega
    have hk13 : ((p.1, p.2 + 1) : Coord) ≠ (p.1 + 1, p.2) := by
      intro h
      have h1 : p.1 = p.1 + 1 := congrArg Prod.fst h
      omega
    have hk23 : ((p.1, p.2 + 1) : Coord) ≠ (p.1 - 1, p.2) := by
      intro h
      have h1 : p.1 = p.1 - 1 := congrArg Prod.fst h
      omega
    have hk14 : ((p.1, p.2 - 1) : Coord) ≠ (p.1 + 1, p.2) := by
      intro h
      have h1 : p.1 = p.1 + 1 := congrArg Prod.fst h
      omega
    have hk24 : ((p.1, p.2 - 1) : Coord) ≠ (p.1 - 1, p.2) := by
      intro h
      have h1 : p.1 = p.1 - 1 := congrArg Prod.fst h
      omega
    have hk34 : ((p.1, p.2 - 1) : Coord) ≠ (p.1, p.2 + 1) := by
      intro h
      have h1 : p.2 - 1 = p.2 + 1 := congrArg Prod.snd h
      omega
    set s1 : GameState := (s.get_tile! (p.1 + 1, p.2)).2 with e1
    set n1 : Tile := (s.get_tile! (p.1 + 1, p.2)).1 with hv1
    set s2 : GameState := (s1.get_tile! (p.1 - 1, p.2)).2 with e2
    set n2 : Tile := (s1.get_tile! (p.1 - 1, p.2)).1 with hv2
    set s3 : GameState := (s2.get_tile! (p.1, p.2 + 1)).2 with e3
    set n3 : Tile := (s2.get_tile! (p.1, p.2 + 1)).1 with hv3
    set s4 : GameState := (s3.get_tile! (p.1, p.2 - 1)).2 with e4
    set n4 : Tile := (s3.get_tile! (p.1, p.2 - 1)).1 with hv4
    -- the four neighbour reads see the original map
    have hm1 : tmGet s1.tiles (p.1 - 1, p.2) = tmGet s.tiles (p.1 - 1, p.2) := by
      rw [e1]
      exact (get_tile_bang_pres s _).2.1 _ hk12
    have hm2 : tmGet s2.tiles (p.1, p.2 + 1) = tmGet s.tiles (p.1, p.2 + 1) := by
      rw [e2, (get_tile_bang_pres s1 _).2.1 _ hk23, e1,
        (get_tile_bang_pres s _).2.1 _ hk13]
    have hm3 : tmGet s3.tiles (p.1, p.2 - 1) = tmGet s.tiles (p.1, p.2 - 1) := by
      rw [e3, (get_tile_bang_pres s2 _).2.1 _ hk34, e2,
        (get_tile_bang_pres s1 _).2.1 _ hk24, e1, (get_tile_bang_pres s _).2.1 _ hk14]
    have hcond2 : (n1.owned || n2.owned || n3.owned || n4.owned) = true := by
      obtain ⟨d, hd, hmem⟩ := hnb
      simp only [List.mem_cons, List.not_mem_nil, or_false] at hd
      rcases hd with rfl | rfl | rfl | rfl
      · simp only [add_zero] at hmem
        rw [hv1, get_tile_bang_owned]
        unfold GameState.get_tile? at hmem
        rw [hmem]
        rfl
      · simp only [add_zero, ← sub_eq_add_neg] at hmem
        have h2 : n2.owned = true := by
          rw [hv2, get_tile_bang_owned, hm1]
          unfold GameState.get_tile? at hmem
          rw [hmem]
          rfl
        simp [h2]
      · simp only [add_zero] at hmem
        have h3 : n3.owned = true := by
          rw [hv3, get_tile_bang_owned, hm2]
          unfold GameState.get_tile? at hmem
          rw [hmem]
          rfl
        simp [h3]
      · simp only [add_zero, ← sub_eq_add_neg] at hmem
        have h4 : n4.owned = true := by
          rw [hv4, get_tile_bang_owned, hm3]
          unfold GameState.get_tile? at hmem
          rw [hmem]
          rfl
        simp [h4]
    rw [hcond2, if_pos rfl]
    have hinv4 : s4.inventory = s.inventory := by
      rw [e4, (get_tile_bang_pres s3 _).1, e3, (get_tile_bang_pres s2 _).1, e2,
        (get_tile_bang_pres s1 _).1, e1, (get_tile_bang_pres s _).1]
    -- the purchased tile after the mutation
    set tileNew : Tile := { tile with owned := true, tree_growth := 1 } with htileNew
    set s5 : GameState := { s4 with
      inventory := invSet s4.inventory "gold" (invGet s4.inventory "gold" - 10),
      tiles := tmSet s4.tiles p tileNew,
      active_task := "Achat de terrain" } with hs5
    have hlookup5 : s5.get_tile? p = some tileNew := by
      show tmGet (tmSet s4.tiles p tileNew) p = some tileNew
      exact tmGet_tmSet_self _ _ _
    have hunlock : s5.apply_unlock_event p none =
        { s5 with tiles := tmSet s5.tiles p { tileNew with event := none } } := by
      unfold GameState.apply_unlock_event
      rw [hlookup5]
      simp [hp1, hp2]
    rw [hunlock]
    set s6 : GameState := { s5 with tiles := tmSet s5.tiles p { tileNew with event := none } }
      with hs6
    have hq := queue_neighbors_pres s6
    constructor
    · have hlook6 : tmGet s6.tiles p = some { tileNew with event := none } := by
        show tmGet (tmSet s5.tiles p _) p = _
        exact tmGet_tmSet_self _ _ _
      have := hq.2 p _ hlook6
      show (tmGet (s6.queue_neighbors).tiles p).map Tile.owned = some true
      rw [this]
      rfl
    · show invGet (s6.queue_neighbors).inventory "gold" = invGet s.inventory "gold" - 10
      rw [hq.1]
      show invGet (invSet s4.inventory "gold" (invGet s4.inventory "gold" - 10)) "gold" = _
      rw [invGet_invSet_self, hinv4]

/-- Two tiles: an owned origin and an unowned neighbour; exactly 10 gold. -/
def c7State : GameState :=
  { tiles := [(((0 : ℤ), (0 : ℤ)), { x := 0, y := 0, owned := true }),
              (((1 : ℤ), (0 : ℤ)), { x := 1, y := 0 })],
    inventory := [("gold", 10), ("wood", 0), ("dust", 0)] }

/-- The same map with only 9 gold. -/
def c7Poor : GameState :=
  { c7State with inventory := [("gold", 9), ("wood", 0), ("dust", 0)] }

theorem C7_buy_tile_witness :
    c7Poor.buy_tile (1, 0) none = c7Poor ∧
    ((c7State.buy_tile (1, 0) none).get_tile? (1, 0)).map Tile.owned = some true ∧
    invGet (c7State.buy_tile (1, 0) none).inventory "gold" = 0 := by
  have hw := C7_buy_tile c7State (1, 0) none { x := 1, y := 0 } (by decide) (by decide)
    ⟨(-1, 0), by decide, by decide⟩
  have hp := C7_buy_tile c7Poor (1, 0) none { x := 1, y := 0 } (by decide) (by decide)
    ⟨(-1, 0), by decide, by decide⟩
  exact ⟨hp.1 (by decide), (hw.2 (by decide) (by decide) (by decide)).1,
    ((hw.2 (by decide) (by decide) (by decide)).2).trans (by decide)⟩

/-! ### C5 and C6 -/

/-- The per-tile loop never emits a `haul_storage` task. -/
theorem filter_tileTasks_haul (tile : Tile) :
    (tileTasks tile).filter (fun t => t.kind == "haul_storage") = [] := by
  unfold tileTasks
  simp only [List.filter_append, List.append_eq_nil]
  refine ⟨⟨⟨?_, ?_⟩, ?_⟩, ?_⟩ <;> (split <;> rfl)

/-- Nor does the whole tile scan. -/
theorem filter_flatten_tileTasks (ts : List Tile) :
    ((ts.map tileTasks).flatten).filter (fun t => t.kind == "haul_storage") = [] := by
  induction ts with
  | nil => rfl
  | cons a l ih =>
      simp only [List.map_cons, List.flatten_cons, List.filter_append,
        filter_tileTasks_haul, List.nil_append]
      exact ih

/-- Nor do the appended patrol tasks. -/
theorem filter_patrol_haul (l : List Coord) :
    ((l.map (fun c => ({ kind := "patrol_fence", target := some c, weight := mkRat 5 10,
                         duration := mkRat 12 10 } : Task))).filter
      (fun t => t.kind == "haul_storage")) = [] := by
  induction l with
  | nil => rfl
  | cons a l ih =>
      rw [List.map_cons, List.filter_cons]
      simpa using ih

/-- C5: with combined wood + dust at least 4 and a storage tile found,
`refresh_task_board` puts exactly one `haul_storage` task on the board, with
weight `1.2 + (wood + dust) * 0.05` and duration 3, targeting the storage
tile. -/
theorem C5_haul_storage (s : GameState) (storage : Tile)
    (hst : s.find_storage_tile = some storage)
    (hrc : 4 ≤ invGet s.inventory "wood" + invGet s.inventory "dust") :
    (s.refresh_task_board).task_board.filter (fun t => t.kind == "haul_storage") =
      [{ kind := "haul_storage", target := some (storage.x, storage.y),
         weight := 1.2 + ((invGet s.inventory "wood" + invGet s.inventory "dust" : ℤ) : ℚ) * 0.05,
         duration := 3 }] := by
  have hw : qadd (mkRat 12 10)
      (qmul ((invGet s.inventory "wood" + invGet s.inventory "dust" : ℤ) : ℚ) (mkRat 5 100)) =
      1.2 + ((invGet s.inventory "wood" + invGet s.inventory "dust" : ℤ) : ℚ) * 0.05 := by
    rw [qadd_eq, qmul_eq]
    norm_num [Rat.mkRat_eq_div]
  unfold GameState.refresh_task_board
  dsimp only
  rw [hst]
  dsimp only
  rw [if_pos hrc]
  simp only [List.filter_append, filter_flatten_tileTasks, filter_patrol_haul,
    List.nil_append, List.append_nil]
  rw [List.filter_cons, if_pos (by rfl), List.filter_nil, hw]

/-- A barrel next to 5 wood and 3 dust. -/
def c5State : GameState :=
  { tiles := [(((0 : ℤ), (0 : ℤ)), { x := 0, y := 0, owned := true, building := some "barrel" })],
    inventory := [("gold", 0), ("wood", 5), ("dust", 3)] }

theorem C5_haul_storage_witness :
    (c5State.refresh_task_board).task_board.filter (fun t => t.kind == "haul_storage") =
      [{ kind := "haul_storage", target := some (0, 0), weight := 1.6, duration := 3 }] := by
  have h := C5_haul_storage c5State
    { x := 0, y := 0, owned := true, building := some "barrel" } (by decide) (by decide)
  refine h.trans ?_
  norm_num [Task.mk.injEq, show invGet c5State.inventory "wood" = 5 from rfl,
    show invGet c5State.inventory "dust" = 3 from rfl]

/-- Looking a tile up yields one of the map's stored values. -/
theorem tmGet_mem (m : TileMap) (p : Coord) (t : Tile) (h : tmGet m p = some t) :
    t ∈ m.map (fun e => e.2) := by
  unfold tmGet at h
  cases hf : m.find? (fun e => e.1 == p) with
  | none =>
      rw [hf] at h
      cases h
  | some e =>
      rw [hf] at h
      simp only [Option.map_some'] at h
      obtain rfl := Option.some.inj h
      exact List.mem_map_of_mem _ (List.mem_of_find?_eq_some hf)

/-- Every task produced by the per-tile scan survives onto the refreshed
board (the haul and patrol tasks are appended after it). -/
theorem mem_board_of_mem_scan (s : GameState) (task : Task)
    (h : task ∈ ((s.tiles.map (fun e => e.2)).map tileTasks).flatten) :
    task ∈ (s.refresh_task_board).task_board := by
  unfold GameState.refresh_task_board
  dsimp only
  cases s.find_storage_tile with
  | none => exact List.mem_append_left _ h
  | some storage =>
      dsimp only
      split
      · exact List.mem_append_left _ (List.mem_append_left _ h)
      · exact List.mem_append_left _ h

/-- C6: every owned, tree-bearing, dust-free tile contributes a `chop_tree`
task targeting it with weight `1 + sizeBonus` and the per-size duration;
the bonus table reads 0 / 0.4 / 0.8 for small / medium / large and the
durations are the three chop constants, so a large tree gets weight 1.8. -/
theorem C6_chop_task (s : GameState) (p : Coord) (tile : Tile)
    (ht : tmGet s.tiles p = some tile)
    (hOwn : tile.owned = true) (hTree : tile.has_tree = true) (hClean : tile.has_dust = false) :
    ({ kind := "chop_tree", target := some (tile.x, tile.y),
       weight := 1 + sizeBonus tile.tree_type,
       duration := sizeDuration tile.tree_type } : Task) ∈ (s.refresh_task_board).task_board ∧
    sizeBonus "small" = 0 ∧ sizeBonus "medium" = 0.4 ∧ sizeBonus "large" = 0.8 ∧
    sizeDuration "small" = SMALL_CHOP ∧ sizeDuration "medium" = MEDIUM_CHOP ∧
    sizeDuration "large" = LARGE_CHOP ∧ (1 : ℚ) + sizeBonus "large" = 1.8 := by
  refine ⟨?_, rfl, ?_, ?_, rfl, rfl, rfl, ?_⟩
  · have hmem1 : ({ kind := "chop_tree", target := some (tile.x, tile.y),
                    weight := qadd 1 (sizeBonus tile.tree_type),
                    duration := sizeDuration tile.tree_type } : Task) ∈ tileTasks tile := by
      unfold tileTasks
      rw [if_pos]
      · exact List.mem_append_left _ (List.mem_append_left _
          (List.mem_append_left _ (List.mem_singleton_self _)))
      · rw [hTree, hClean, hOwn]
        rfl
    have hEq : ({ kind := "chop_tree", target := some (tile.x, tile.y),
                  weight := qadd 1 (sizeBonus tile.tree_type),
                  duration := sizeDuration tile.tree_type } : Task) =
        ({ kind := "chop_tree", target := some (tile.x, tile.y),
           weight := 1 + sizeBonus tile.tree_type,
           duration := sizeDuration tile.tree_type } : Task) := by
      rw [qadd_eq]
    rw [hEq] at hmem1
    exact mem_board_of_mem_scan s _ (List.mem_flatten.mpr
      ⟨tileTasks tile, List.mem_map_of_mem _ (tmGet_mem _ _ _ ht), hmem1⟩)
  · exact (show sizeBonus "medium" = mkRat 4 10 from rfl).trans (by norm_num [Rat.mkRat_eq_div])
  · exact (show sizeBonus "large" = mkRat 8 10 from rfl).trans (by norm_num [Rat.mkRat_eq_div])
  · rw [show sizeBonus "large" = mkRat 8 10 from rfl]
    norm_num [Rat.mkRat_eq_div]

/-- One owned tile carrying a large tree. -/
def c6State : GameState :=
  { tiles := [(((2 : ℤ), (0 : ℤ)),
      { x := 2, y := 0, owned := true, has_tree := true, tree_type := "large" })],
    inventory := [("gold", 0), ("wood", 0), ("dust", 0)] }

theorem C6_chop_task_witness :
    ({ kind := "chop_tree", target := some (2, 0), weight := 1.8,
       duration := LARGE_CHOP } : Task) ∈ (c6State.refresh_task_board).task_board := by
  have h := C6_chop_task c6State (2, 0)
    { x := 2, y := 0, owned := true, has_tree := true, tree_type := "large" }
    (by decide) rfl rfl rfl
  have h1 := h.1
  dsimp only at h1
  have hw : (1 : ℚ) + sizeBonus "large" = 1.8 := h.2.2.2.2.2.2.2
  rwa [hw] at h1

/-! ### C1 -/

/-- A successful indexed lookup is within bounds. -/
theorem getq_lt_length {α : Type} (l : List α) (j : ℕ) (u : α) (h : l[j]? = some u) :
    j < l.length := by
  by_contra hc
  push_neg at hc
  rw [List.getElem?_eq_none hc] at h
  cases h

/-- The first-maximum invariant of the `max(..., key=priority)` scan of
`Game.assign_task_to_lumberjack`: starting from a current best `b` found at
index `k` with the elements from index `i` on still to scan, the scan
returns an element of the list that no element beats, and that strictly
beats every element at an earlier index (Python `max` keeps the first of
several maxima). -/
theorem pyMaxWithIdx_go {α : Type} (f : α → ℚ) (full : List α) :
    ∀ (l : List α) (b : α) (k i : ℕ),
      full.drop i = l →
      full[k]? = some b →
      k < i →
      (∀ j, j < i → ∀ u, full[j]? = some u → f u ≤ f b) →
      (∀ j, j < k → ∀ u, full[j]? = some u → f u < f b) →
      (full[(pyMaxWithIdx f (b, k) i l).2]? = some (pyMaxWithIdx f (b, k) i l).1 ∧
       (∀ u ∈ full, f u ≤ f (pyMaxWithIdx f (b, k) i l).1) ∧
       (∀ j, j < (pyMaxWithIdx f (b, k) i l).2 → ∀ u, full[j]? = some u →
         f u < f (pyMaxWithIdx f (b, k) i l).1)) := by
  intro l
  induction l generalizing full with
  | nil =>
      intro b k i hdrop hget hki hle hlt
      refine ⟨hget, ?_, hlt⟩
      intro u hu
      obtain ⟨j, hj⟩ := List.mem_iff_getElem?.mp hu
      have hlen : full.length ≤ i := by
        by_contra hc
        push_neg at hc
        rw [List.drop_eq_getElem_cons hc] at hdrop
        cases hdrop
      exact hle j (lt_of_lt_of_le (getq_lt_length full j u hj) hlen) u hj
  | cons x xs ih =>
      intro b k i hdrop hget hki hle hlt
      have hilen : i < full.length := by
        by_contra hc
        push_neg at hc
        rw [List.drop_eq_nil_of_le hc] at hdrop
        cases hdrop
      have hcons := List.drop_eq_getElem_cons hilen
      rw [hdrop] at hcons
      injection hcons with hx hxs
      have hgx : full[i]? = some x := by
        rw [hx]
        exact List.getElem?_eq_getElem hilen
      by_cases hfb : f b < f x
      · rw [show pyMaxWithIdx f (b, k) i (x :: xs) = pyMaxWithIdx f (x, i) (i + 1) xs from by
          simp only [pyMaxWithIdx]
          rw [if_pos hfb]]
        have hle' : ∀ j, j < i + 1 → ∀ u, full[j]? = some u → f u ≤ f x := by
          intro j hj u hu
          rcases Nat.lt_succ_iff_lt_or_eq.mp hj with hj | rfl
          · exact le_of_lt (lt_of_le_of_lt (hle j hj u hu) hfb)
          · rw [hgx] at hu
            cases hu
            exact le_refl _
        have hlt' : ∀ j, j < i → ∀ u, full[j]? = some u → f u < f x := by
          intro j hj u hu
          exact lt_of_le_of_lt (hle j hj u hu) hfb
        exact ih full x i (i + 1) hxs.symm hgx (Nat.lt_succ_self i) hle' hlt'
      · rw [show pyMaxWithIdx f (b, k) i (x :: xs) = pyMaxWithIdx f (b, k) (i + 1) xs from by
          simp only [pyMaxWithIdx]
          rw [if_neg hfb]]
        have hle' : ∀ j, j < i + 1 → ∀ u, full[j]? = some u → f u ≤ f b := by
          intro j hj u hu
          rcases Nat.lt_succ_iff_lt_or_eq.mp hj with hj | rfl
          · exact hle j hj u hu
          · rw [hgx] at hu
            cases hu
            exact le_of_not_lt hfb
        exact ih full b k (i + 1) hxs.symm hget (Nat.lt_succ_of_lt hki) hle' hlt

/-- C1: on a non-empty board with at least one valid task, the scheduler
returns `some best` and binds it (by value) as the agent's `current_task`,
where `best` passed the validity check, sits at some index `idx` of the
valid-task list, no valid task has a higher priority, and every valid task
at an earlier index has a strictly lower priority (first-found maximum). -/
theorem C1_scheduler (s : GameState) (sq : ℚ → ℚ) (l : Lumberjack)
    (hne : s.task_board.isEmpty = false)
    (hvalid : s.task_board.filter s.is_task_valid ≠ []) :
    ∃ (best : Task) (idx : ℕ),
      (s.assign_task_to_lumberjack sq l).2 = some best ∧
      ((s.assign_task_to_lumberjack sq l).1).current_task = some best ∧
      s.is_task_valid best = true ∧
      (s.task_board.filter s.is_task_valid)[idx]? = some best ∧
      (∀ u ∈ s.task_board.filter s.is_task_valid,
        priority sq l.x l.y u ≤ priority sq l.x l.y best) ∧
      (∀ j, j < idx → ∀ u, (s.task_board.filter s.is_task_valid)[j]? = some u →
        priority sq l.x l.y u < priority sq l.x l.y best) := by
  unfold GameState.assign_task_to_lumberjack
  rw [hne]
  simp only [Bool.false_eq_true, if_false]
  cases hf : s.task_board.filter s.is_task_valid with
  | nil => exact absurd hf hvalid
  | cons c cs =>
      dsimp only
      have hle0 : ∀ j, j < 1 → ∀ u, ((c :: cs) : List Task)[j]? = some u →
          priority sq l.x l.y u ≤ priority sq l.x l.y c := by
        intro j hj u hu
        obtain rfl := Nat.lt_one_iff.mp hj
        rw [List.getElem?_cons_zero] at hu
        cases hu
        exact le_refl _
      have hlt0 : ∀ j, j < 0 → ∀ u, ((c :: cs) : List Task)[j]? = some u →
          priority sq l.x l.y u < priority sq l.x l.y c :=
        fun j hj _ _ => absurd hj (Nat.not_lt_zero j)
      have hgo := pyMaxWithIdx_go (priority sq l.x l.y) (c :: cs) cs c 0 1 rfl
        (List.getElem?_cons_zero) Nat.one_pos hle0 hlt0
      refine ⟨(pyMaxWithIdx (priority sq l.x l.y) (c, 0) 1 cs).1,
        (pyMaxWithIdx (priority sq l.x l.y) (c, 0) 1 cs).2, rfl, rfl, ?_, hgo.1, hgo.2.1,
        hgo.2.2⟩
      have hmemf : (pyMaxWithIdx (priority sq l.x l.y) (c, 0) 1 cs).1 ∈
          s.task_board.filter s.is_task_valid := by
        rw [hf]
        exact List.mem_iff_getElem?.mpr ⟨_, hgo.1⟩
      exact (List.mem_filter.mp hmemf).2

/-- Two always-valid patrol tasks of different weight. -/
def c1State : GameState :=
  { tiles := [],
    inventory := [("gold", 0), ("wood", 0), ("dust", 0)],
    task_board := [
      { kind := "patrol_fence", target := none, weight := 1, duration := 1 },
      { kind := "patrol_fence", target := none, weight := 2, duration := 1 }] }

theorem C1_scheduler_witness :
    ∃ (best : Task) (idx : ℕ),
      (c1State.assign_task_to_lumberjack (fun q => q) { x := 0, y := 0 }).2 = some best ∧
      ((c1State.assign_task_to_lumberjack (fun q => q) { x := 0, y := 0 }).1).current_task =
        some best ∧
      c1State.is_task_valid best = true ∧
      (c1State.task_board.filter c1State.is_task_valid)[idx]? = some best ∧
      (∀ u ∈ c1State.task_board.filter c1State.is_task_valid,
        priority (fun q => q) 0 0 u ≤ priority (fun q => q) 0 0 best) ∧
      (∀ j, j < idx → ∀ u, (c1State.task_board.filter c1State.is_task_valid)[j]? = some u →
        priority (fun q => q) 0 0 u < priority (fun q => q) 0 0 best) :=
  C1_scheduler c1State (fun q => q) { x := 0, y := 0 } (by decide) (by decide)

/-! ### C2 -/

/-- Reachability is closed under prepending one operation. -/
theorem Reach_head {s s1 s2 : GameState} {o : Op} (h : opApply o s = some s1)
    (hr : Reach s1 s2) : Reach s s2 := by
  induction hr with
  | refl => exact Reach.tail (Reach.refl s) h
  | tail h1 h2 ih => exact Reach.tail ih h2

/-- A successfully executed operation list witnesses reachability. -/
theorem runOps_sound : ∀ (ops : List Op) (s s2 : GameState),
    runOps s ops = some s2 → Reach s s2 := by
  intro ops
  induction ops with
  | nil =>
      intro s s2 h
      cases h
      exact Reach.refl s
  | cons o rest ih =>
      intro s s2 h
      unfold runOps at h
      cases ho : opApply o s with
      | none =>
          rw [ho] at h
          cases h
      | some s1 =>
          rw [ho] at h
          exact Reach_head ho (ih s1 s2 h)

/-- A consistent starting position: a tier-3 barrel, a free owned tile,
200 gold under a ceiling of 60 + 3·50 = 210. -/
def c2Start : GameState :=
  { tiles := [(((1 : ℤ), (1 : ℤ)),
      { x := 1, y := 1, owned := true, building := some "barrel", building_tier := 3 }),
      (((1 : ℤ), (2 : ℤ)), { x := 1, y := 2, owned := true })],
    inventory := [("gold", 200), ("wood", 10), ("dust", 0)],
    gold_max := 210,
    storage_tier := 3 }

/-- Demolish the tier-3 barrel, then build a fresh tier-1 barrel. -/
def c2Ops : List Op := [Op.destroy (1, 1), Op.place (1, 2) "barrel"]

def c2Bad : GameState := (c2Start.destroy_building (1, 1)).place_building (1, 2) "barrel"

/-- C2 is false as stated: from a consistent state (gold within a ceiling
that matches the built storage), two player actions reach a state that
still violates `gold ≤ gold_max` after the economy update of the next tick
(`maintain_buildings` + `apply_building_effects` touch neither counter):
the rebuild recomputed the ceiling down to 110 with 194 gold left. -/
theorem C2_counterexample :
    (c2Start.gold ≤ c2Start.gold_max ∧
      c2Start.gold_max = 60 + barrelCapacity c2Start.tiles) ∧
    Reach c2Start c2Bad ∧
    ((c2Bad.maintain_buildings 1 (fun _ => false)).apply_building_effects).gold_max <
      ((c2Bad.maintain_buildings 1 (fun _ => false)).apply_building_effects).gold := by
  refine ⟨by decide, runOps_sound c2Ops c2Start c2Bad rfl, by decide⟩

/-- C2 (amended): each gold-adding path does clamp — `add_gold` (and so
selling and event income) writes `min(gold_max, ...)`, quest rewards clamp
through `grantReward`, and the economy update itself never changes `gold`
or `gold_max` — so `gold ≤ gold_max` is preserved by those operations; the
invariant can still be broken by rebuilding storage, which lowers the
ceiling without re-clamping the counter. -/
theorem C2_gold_clamp (s : GameState) (amount : ℤ) (key : String) (p : Coord) (evt : String)
    (dt : ℚ) (dustRoll : Coord → Bool)
    (h : s.gold ≤ s.gold_max) :
    (s.add_gold amount).gold ≤ (s.add_gold amount).gold_max ∧
    (s.sell_resources).gold ≤ (s.sell_resources).gold_max ∧
    (s.progress_quest key).gold ≤ (s.progress_quest key).gold_max ∧
    (s.apply_timed_event p evt).gold ≤ (s.apply_timed_event p evt).gold_max ∧
    ((s.maintain_buildings dt dustRoll).apply_building_effects).gold = s.gold ∧
    ((s.maintain_buildings dt dustRoll).apply_building_effects).gold_max = s.gold_max := by
  have hadd : ∀ (t : GameState) (a : ℤ), (t.add_gold a).gold ≤ (t.add_gold a).gold_max := by
    intro t a
    show invGet (invSet t.inventory "gold" (min t.gold_max (invGet t.inventory "gold" + a)))
        "gold" ≤ t.gold_max
    rw [invGet_invSet_self]
    exact min_le_left _ _
  have hmfacts : (s.maintain_buildings dt dustRoll).inventory = s.inventory ∧
      (s.maintain_buildings dt dustRoll).gold_max = s.gold_max := by
    unfold GameState.maintain_buildings
    refine foldl_preserves
      (fun st : GameState => st.inventory = s.inventory ∧ st.gold_max = s.gold_max)
      _ ?_ _ _ ⟨rfl, rfl⟩
    intro a q ha
    cases tmGet a.tiles q with
    | none => exact ha
    | some tile =>
        dsimp only
        split
        · exact ha
        · exact ha
  refine ⟨hadd s amount, ?_, progress_quest_gold_le s key h, ?_, ?_, ?_⟩
  · unfold GameState.sell_resources GameState.gold
    dsimp only
    rw [invGet_invSet_other _ _ _ _ (by decide), invGet_invSet_other _ _ _ _ (by decide)]
    exact hadd s _
  · unfold GameState.apply_timed_event
    cases s.get_tile? p with
    | none => exact h
    | some tile =>
        dsimp only
        split
        · exact h
        · split
          · exact progress_quest_gold_le _ "recruit_friend" h
          · split
            · exact h
            · split
              · exact h
              · split
                · exact hadd _ 4
                · split
                  · show invGet (invSet _ "wood" _) "gold" ≤ _
                    rw [invGet_invSet_other _ _ _ _ (by decide)]
                    exact h
                  · exact h
  · show invGet (s.maintain_buildings dt dustRoll).inventory "gold" = invGet s.inventory "gold"
    rw [hmfacts.1]
  · show (s.maintain_buildings dt dustRoll).gold_max = s.gold_max
    exact hmfacts.2

theorem C2_gold_clamp_witness :
    c2Start.gold ≤ c2Start.gold_max ∧
    ((c2Start.add_gold 5).gold ≤ (c2Start.add_gold 5).gold_max ∧
     (c2Start.sell_resources).gold ≤ (c2Start.sell_resources).gold_max ∧
     (c2Start.progress_quest "cut_tree").gold ≤ (c2Start.progress_quest "cut_tree").gold_max ∧
     (c2Start.apply_timed_event (1, 1) "fete").gold ≤
       (c2Start.apply_timed_event (1, 1) "fete").gold_max ∧
     ((c2Start.maintain_buildings 1 (fun _ => false)).apply_building_effects).gold =
       c2Start.gold ∧
     ((c2Start.maintain_buildings 1 (fun _ => false)).apply_building_effects).gold_max =
       c2Start.gold_max) :=
  ⟨by decide, C2_gold_clamp c2Start 5 "cut_tree" (1, 1) "fete" 1 (fun _ => false) (by decide)⟩

/-! ### C3 -/

/-- A successful positional lookup is within bounds. -/
theorem get?_some_lt {α : Type} : ∀ (l : List α) (i : ℕ) (a : α),
    l.get? i = some a → i < l.length := by
  intro l
  induction l with
  | nil =>
      intro i a h
      cases h
  | cons x xs ih =>
      intro i a h
      cases i with
      | zero => exact Nat.succ_pos _
      | succ i => exact Nat.succ_lt_succ (ih i a h)

theorem get?_set_self {α : Type} : ∀ (l : List α) (i : ℕ) (a : α), i < l.length →
    (l.set i a).get? i = some a := by
  intro l
  induction l with
  | nil =>
      intro i a h
      cases h
  | cons x xs ih =>
      intro i a h
      cases i with
      | zero => rfl
      | succ i => exact ih i a (Nat.lt_of_succ_lt_succ h)

theorem get?_set_other {α : Type} : ∀ (l : List α) (i j : ℕ) (a : α), j ≠ i →
    (l.set i a).get? j = l.get? j := by
  intro l
  induction l with
  | nil => intro i j a _; rfl
  | cons x xs ih =>
      intro i j a h
      cases i with
      | zero =>
          cases j with
          | zero => exact absurd rfl h
          | succ j => rfl
      | succ i =>
          cases j with
          | zero => rfl
          | succ j => exact ih i j a (fun hh => h (by rw [hh]))

/-- `handle_chop_result` never touches the agent list (chopping rewards flow
through tiles, inventory and quests only). -/
theorem handle_chop_result_lumberjacks (s : GameState) (f : Bool) (p : Coord) :
    (s.handle_chop_result f p).lumberjacks = s.lumberjacks := by
  unfold GameState.handle_chop_result
  split
  · unfold GameState.chop_tree
    cases s.get_tile? p with
    | none => rfl
    | some tile =>
        dsimp only
        exact (progress_quest_frame _ "cut_tree").2.2.trans rfl
  · cases s.get_tile? p with
    | none => rfl
    | some tile => rfl

/-- A mid-chop friendly agent adjacent to a live hostile: the chopping
branch of the agent loop runs before the combat branch. -/
def c3Friend : Lumberjack :=
  { x := 0, y := 0, chopping := 2, chop_duration := 5, target := some (0, 0) }

def c3Enemy : Lumberjack :=
  { x := mkRat 1 10, y := 0, friendly := false, health := 2 }

def c3State : GameState :=
  { tiles := [(((0 : ℤ), (0 : ℤ)),
      { x := 0, y := 0, owned := true, has_tree := true, tree_growth := 1 })],
    inventory := [("gold", 0), ("wood", 0), ("dust", 0)],
    lumberjacks := [c3Friend, c3Enemy] }

/-- C3 is false as stated: a friendly agent inside the 0.2 combat radius of
a live hostile still advances its in-flight felling countdown (2 → 3/2 over
a half-second tick) while the fight is on (the hostile drops from 2 to 1
health and both sides stay alive), because `update_lumberjacks` checks
`chopping > 0` before the combat branch. -/
theorem C3_counterexample :
    c3Friend.friendly = true ∧ c3Enemy.friendly = false ∧
    qadd (qmul (qsub c3Enemy.x c3Friend.x) (qsub c3Enemy.x c3Friend.x))
        (qmul (qsub c3Enemy.y c3Friend.y) (qsub c3Enemy.y c3Friend.y)) < mkRat 4 100 ∧
    c3State.lumberjacks = [c3Friend, c3Enemy] ∧ 0 < c3Friend.chopping ∧
    ((update_lumberjacks (fun _ => 0) c3State (mkRat 1 2)).lumberjacks.get? 0).map
        Lumberjack.chopping = some (mkRat 3 2) ∧
    ((update_lumberjacks (fun _ => 0) c3State (mkRat 1 2)).lumberjacks.get? 0).map
        Lumberjack.health = some 3 ∧
    ((update_lumberjacks (fun _ => 0) c3State (mkRat 1 2)).lumberjacks.get? 1).map
        Lumberjack.health = some 1 := by
  decide

/-- C3 (amended): in the per-agent loop, combat does pre-empt scheduling and
task resolution — an idle friendly agent near the closest hostile (within
the 0.1 radius) is left untouched while the hostile loses `3·dt` health —
but it does not pre-empt an in-flight felling countdown: an agent with
`chopping > 0` decrements it by `dt` no matter which enemies are around. -/
theorem C3_amended (dt : ℚ) (sq : ℚ → ℚ) (s : GameState) (i : ℕ) (l : Lumberjack)
    (hl : s.lumberjacks.get? i = some l) :
    (∀ (k0 : ℕ) (ks : List ℕ) (enemy : Lumberjack),
      l.friendly = true → l.chopping ≤ 0 →
      s.lumberjacks.get? (pyMinBy (fun k => match s.lumberjacks.get? k with
          | some e => qadd (qabs (qsub e.x l.x)) (qabs (qsub e.y l.y))
          | none => 0) k0 ks) = some enemy →
      enemy.friendly = false →
      qadd (qmul (qsub enemy.x l.x) (qsub enemy.x l.x))
          (qmul (qsub enemy.y l.y) (qsub enemy.y l.y)) < mkRat 1 100 →
      0 < qsub enemy.health (qmul dt 3) →
      (processAgent dt sq (s, k0 :: ks) i).1.lumberjacks.get? i = some l ∧
      (processAgent dt sq (s, k0 :: ks) i).1.lumberjacks.get?
          (pyMinBy (fun k => match s.lumberjacks.get? k with
            | some e => qadd (qabs (qsub e.x l.x)) (qabs (qsub e.y l.y))
            | none => 0) k0 ks) =
        some { enemy with health := qsub enemy.health (qmul dt 3) }) ∧
    (∀ (en : List ℕ), 0 < l.chopping →
      ((processAgent dt sq (s, en) i).1.lumberjacks.get? i).map Lumberjack.chopping =
        some (qsub l.chopping dt)) := by
  constructor
  · intro k0 ks enemy hf hch hke hef hd2 hsurv
    have hik : i ≠ pyMinBy (fun k => match s.lumberjacks.get? k with
        | some e => qadd (qabs (qsub e.x l.x)) (qabs (qsub e.y l.y))
        | none => 0) k0 ks := by
      intro he
      rw [← he, hl] at hke
      injection hke with he2
      rw [← he2] at hef
      rw [hf] at hef
      exact Bool.noConfusion hef
    unfold processAgent
    dsimp only
    rw [hl]
    dsimp only
    rw [if_neg (not_lt.mpr hch)]
    rw [if_pos (show (l.friendly && !(List.isEmpty (k0 :: ks))) = true by rw [hf]; rfl)]
    rw [hke]
    dsimp only
    rw [if_pos hd2]
    rw [if_neg (not_le.mpr hsurv)]
    dsimp only
    refine ⟨?_, ?_⟩
    · rw [get?_set_other _ _ _ _ hik]
      exact hl
    · exact get?_set_self _ _ _ (get?_some_lt _ _ _ hke)
  · intro en hch
    have hilen : i < s.lumberjacks.length := get?_some_lt _ _ _ hl
    unfold processAgent
    dsimp only
    rw [hl]
    dsimp only
    rw [if_pos hch]
    split
    · split
      · split
        · unfold updAgent
          rw [handle_chop_result_lumberjacks]
          dsimp only
          rw [get?_set_self _ _ _ hilen]
          dsimp only
          rw [get?_set_self _ _ _ (by simpa using hilen)]
          rfl
        · dsimp only
          rw [get?_set_self _ _ _ hilen]
          rfl
      · dsimp only
        rw [get?_set_self _ _ _ hilen]
        rfl
    · dsimp only
      rw [get?_set_self _ _ _ hilen]
      rfl

/-- An idle friendly agent 0.05 away from a hostile with 2 health. -/
def c3Idle : GameState :=
  { lumberjacks := [{ x := 0, y := 0 },
      { x := mkRat 5 100, y := 0, friendly := false, health := 2 }] }

theorem C3_amended_witness :
    ((processAgent (mkRat 1 2) (fun _ => 0) (c3Idle, [1]) 0).1.lumberjacks.get? 0 =
        some { x := 0, y := 0 } ∧
      (processAgent (mkRat 1 2) (fun _ => 0) (c3Idle, [1]) 0).1.lumberjacks.get? 1 =
        some { x := mkRat 5 100, y := 0, friendly := false, health := mkRat 1 2 }) ∧
    ((processAgent (mkRat 1 2) (fun _ => 0) (c3State, [1]) 0).1.lumberjacks.get? 0).map
        Lumberjack.chopping = some (mkRat 3 2) := by
  have h1 := C3_amended (mkRat 1 2) (fun _ => 0) c3Idle 0 { x := 0, y := 0 } (by decide)
  have h2 := C3_amended (mkRat 1 2) (fun _ => 0) c3State 0 c3Friend (by decide)
  have hp1 := h1.1 1 []
    { x := mkRat 5 100, y := 0, friendly := false, health := 2 }
    rfl (by decide) (by decide) rfl (by decide) (by decide)
  exact ⟨⟨hp1.1, hp1.2.trans (by decide)⟩, (h2.2 [1] (by decide)).trans (by decide)⟩

/-! ### C4 -/

/-- The tile map a `get_tile!` call leaves behind is a function of the tile
map it found. -/
theorem get_tile_bang_tiles (x : GameState) (r : Coord) :
    ((x.get_tile! r).2).tiles =
      (match tmGet x.tiles r with
       | some _ => x.tiles
       | none => tmSet x.tiles r { x := r.1, y := r.2 }) := by
  unfold GameState.get_tile!
  cases tmGet x.tiles r <;> rfl

theorem foldqn_inner_congr (x : ℤ) (ys : List ℤ) : ∀ (a b : GameState), a.tiles = b.tiles →
    ((ys.foldl (fun st2 y => (st2.get_tile! (x, y)).2) a).tiles =
     (ys.foldl (fun st2 y => (st2.get_tile! (x, y)).2) b).tiles) := by
  induction ys with
  | nil => exact fun a b h => h
  | cons y t ih =>
      intro a b h
      simp only [List.foldl_cons]
      refine ih _ _ ?_
      rw [get_tile_bang_tiles, get_tile_bang_tiles, h]

theorem foldqn_congr (xs ys : List ℤ) : ∀ (a b : GameState), a.tiles = b.tiles →
    ((xs.foldl (fun st x => ys.foldl (fun st2 y => (st2.get_tile! (x, y)).2) st) a).tiles =
     (xs.foldl (fun st x => ys.foldl (fun st2 y => (st2.get_tile! (x, y)).2) st) b).tiles) := by
  induction xs with
  | nil => exact fun a b h => h
  | cons x t ih =>
      intro a b h
      simp only [List.foldl_cons]
      exact ih _ _ (foldqn_inner_congr x ys a b h)

/-- The buffer `queue_neighbors` materialises depends only on the tile map. -/
theorem queue_neighbors_tiles_congr (a b : GameState) (h : a.tiles = b.tiles) :
    (a.queue_neighbors).tiles = (b.queue_neighbors).tiles := by
  unfold GameState.queue_neighbors
  have howned : a.owned_tiles = b.owned_tiles := by
    unfold GameState.owned_tiles
    rw [h]
  rw [howned]
  dsimp only
  split
  · exact h
  · exact foldqn_congr _ _ a b h

/-- `queue_neighbors` touches only the tile map. -/
theorem queue_neighbors_frame2 (x : GameState) :
    (x.queue_neighbors).lumberjacks = x.lumberjacks ∧
    (x.queue_neighbors).inventory = x.inventory := by
  unfold GameState.queue_neighbors
  dsimp only
  split
  · exact ⟨rfl, rfl⟩
  · refine foldl_preserves
      (fun st : GameState => st.lumberjacks = x.lumberjacks ∧ st.inventory = x.inventory)
      _ ?_ _ _ ⟨rfl, rfl⟩
    intro a y ha
    refine foldl_preserves
      (fun st : GameState => st.lumberjacks = x.lumberjacks ∧ st.inventory = x.inventory)
      _ ?_ _ _ ha
    intro b z hb
    unfold GameState.get_tile!
    cases tmGet b.tiles (y, z) with
    | some t => exact hb
    | none => exact hb

/-- `setSpecialAt` touches only the tile map. -/
theorem setSpecialAt_frame (x : GameState) (p : Coord) (sp : String) :
    (setSpecialAt x p sp).lumberjacks = x.lumberjacks ∧
    (setSpecialAt x p sp).inventory = x.inventory ∧
    (setSpecialAt x p sp).helper_npc = x.helper_npc ∧
    (setSpecialAt x p sp).quest_npc = x.quest_npc := by
  unfold setSpecialAt GameState.get_tile!
  cases tmGet x.tiles p <;> exact ⟨rfl, rfl, rfl, rfl⟩

/-- Re-marking an already marked tile is a no-op on the tile map. -/
theorem setSpecialAt_tiles_self (x : GameState) (p : Coord) (sp : String) (t : Tile)
    (h1 : tmGet x.tiles p = some t) (h2 : t.special = some sp) :
    (setSpecialAt x p sp).tiles = x.tiles := by
  unfold setSpecialAt GameState.get_tile!
  rw [h1]
  dsimp only
  have ht : ({ t with special := some sp } : Tile) = t := by
    rw [← h2]
  rw [ht]
  exact tmSet_self _ _ _ h1

/-- Rebuilding the assoc list from the stored values restores it when every
stored key agrees with its tile's coordinates. -/
theorem tiles_roundtrip (m : TileMap) (h : ∀ e ∈ m, ((e.2.x, e.2.y) : Coord) = e.1) :
    (m.map (fun e => e.2)).map (fun (t : Tile) => (((t.x, t.y) : Coord), t)) = m := by
  induction m with
  | nil => rfl
  | cons e rest ih =>
      simp only [List.map_cons]
      have h1 : ((((e.2.x, e.2.y) : Coord)), e.2) = e := by
        rw [h e (List.mem_cons_self e rest)]
      rw [h1, ih (fun z hz => h z (List.mem_cons_of_mem e hz))]

/-- The closing `recompute_storage_capacity` + `queue_neighbors` of
`load_game` keep the three compared components, given the buffer was already
materialised. -/
theorem final_ok (s y : GameState)
    (hqn : (s.queue_neighbors).tiles = s.tiles)
    (ht : y.tiles = s.tiles) (hl : y.lumberjacks = s.lumberjacks)
    (hi : y.inventory = s.inventory) :
    ((y.recompute_storage_capacity).queue_neighbors).tiles = s.tiles ∧
    ((y.recompute_storage_capacity).queue_neighbors).lumberjacks = s.lumberjacks ∧
    ((y.recompute_storage_capacity).queue_neighbors).inventory = s.inventory := by
  refine ⟨?_, ?_, ?_⟩
  · have h1 : (y.recompute_storage_capacity).tiles = s.tiles := ht
    exact (queue_neighbors_tiles_congr (y.recompute_storage_capacity) s h1).trans hqn
  · have h2 : (y.recompute_storage_capacity).lumberjacks = s.lumberjacks := hl
    exact (queue_neighbors_frame2 (y.recompute_storage_capacity)).1.trans h2
  · have h3 : (y.recompute_storage_capacity).inventory = s.inventory := hi
    exact (queue_neighbors_frame2 (y.recompute_storage_capacity)).2.trans h3

/-- Marking tile `p` leaves every other key’s lookup unchanged. -/
theorem tmGet_setSpecialAt_other (x : GameState) (p q : Coord) (sp : String) (h : q ≠ p) :
    tmGet (setSpecialAt x p sp).tiles q = tmGet x.tiles q := by
  unfold setSpecialAt GameState.get_tile!
  cases hx : tmGet x.tiles p with
  | some t => exact tmGet_tmSet_other _ _ _ _ h
  | none =>
      dsimp only
      rw [tmGet_tmSet_other _ _ _ _ h, tmGet_tmSet_other _ _ _ _ h]

/-- C4 (amended): with at least one agent saved, coordinate-consistent tile
keys, NPC marker tiles already carrying their markers, and the neighbour
buffer already materialised (all invariants of a running game), the
save/load round trip reproduces the tile map, the agent list (with each
agent's queue and current task) and the inventory. Without the first
hypothesis the loader fabricates a default agent (see the counterexample). -/
theorem C4_roundtrip (s : GameState)
    (hlj : s.lumberjacks ≠ [])
    (hkeys : ∀ e ∈ s.tiles, ((e.2.x, e.2.y) : Coord) = e.1)
    (hq : ∀ p, s.quest_npc = some p → ∃ t, tmGet s.tiles p = some t ∧ t.special = some "quest")
    (hh : ∀ p, s.helper_npc = some p → ∃ t, tmGet s.tiles p = some t ∧ t.special = some "guide")
    (hqn : (s.queue_neighbors).tiles = s.tiles) :
    (s.load_game s.save_game).tiles = s.tiles ∧
    (s.load_game s.save_game).lumberjacks = s.lumberjacks ∧
    (s.load_game s.save_game).inventory = s.inventory := by
  have hlne : ((s.lumberjacks.map serialize_lumberjack).isEmpty) = false := by
    cases hL : s.lumberjacks with
    | nil => exact absurd hL hlj
    | cons a t => rfl
  have hdes : ∀ L : List Lumberjack,
      (L.map serialize_lumberjack).map deserialize_lumberjack = L := by
    intro L
    induction L with
    | nil => rfl
    | cons a t ih =>
        simp only [List.map_cons]
        rw [ih]
        rfl
  unfold GameState.load_game GameState.save_game
  try dsimp only
  rw [tiles_roundtrip s.tiles hkeys, hlne]
  simp only [Bool.false_eq_true, if_false]
  rw [hdes s.lumberjacks]
  rw [show (if (s.quests.isEmpty) = true then s.quests else s.quests) = s.quests from
    by split <;> rfl]
  rw [show (match s.helper_npc with | some p => some p | none => s.helper_npc) =
      s.helper_npc from by cases s.helper_npc <;> rfl]
  cases haq : s.active_quest with
  | none =>
      try dsimp only
      cases hqe : s.quests.isEmpty with
      | true =>
          rw [if_pos rfl]
          try dsimp only
          cases hqp2 : s.quest_npc with
          | none =>
              try dsimp only
              cases hhp2 : s.helper_npc with
              | none =>
                  refine final_ok s ?_ hqn ?_ ?_ ?_
                  · rfl
                  · rfl
                  · rfl
              | some p2 =>
                  try dsimp only
                  obtain ⟨t2, ht21, ht22⟩ := hh p2 hhp2
                  refine final_ok s ?_ hqn ?_ ?_ ?_
                  · exact setSpecialAt_tiles_self _ p2 "guide" t2 ht21 ht22
                  · exact (setSpecialAt_frame _ p2 "guide").1
                  · exact (setSpecialAt_frame _ p2 "guide").2.1
          | some p =>
              try dsimp only
              obtain ⟨t, htq1, htq2⟩ := hq p hqp2
              rw [(setSpecialAt_frame _ p "quest").2.2.1]
              try dsimp only
              cases hhp2 : s.helper_npc with
              | none =>
                  refine final_ok s ?_ hqn ?_ ?_ ?_
                  · exact setSpecialAt_tiles_self _ p "quest" t htq1 htq2
                  · exact (setSpecialAt_frame _ p "quest").1
                  · exact (setSpecialAt_frame _ p "quest").2.1
              | some p2 =>
                  try dsimp only
                  obtain ⟨t2, ht21, ht22⟩ := hh p2 hhp2
                  refine final_ok s ?_ hqn ?_ ?_ ?_
                  · exact Eq.trans
                      (setSpecialAt_tiles_self _ p2 "guide" t2
                        (by
                by_cases hpp : p2 = p
                · subst hpp
                  rw [htq1] at ht21
                  injection ht21 with ht2eq
                  rw [← ht2eq, htq2] at ht22
                  exact absurd ht22 (by decide)
                · rw [tmGet_setSpecialAt_other _ _ _ _ hpp]
                  exact ht21) ht22)
                      (setSpecialAt_tiles_self _ p "quest" t htq1 htq2)
                  · exact Eq.trans ((setSpecialAt_frame _ p2 "guide").1)
                      ((setSpecialAt_frame _ p "quest").1)
                  · exact Eq.trans ((setSpecialAt_frame _ p2 "guide").2.1)
                      ((setSpecialAt_frame _ p "quest").2.1)
      | false =>
          simp only [Bool.false_eq_true, if_false]
          try dsimp only
          cases hqp2 : s.quest_npc with
          | none =>
              try dsimp only
              cases hhp2 : s.helper_npc with
              | none =>
                  refine final_ok s ?_ hqn ?_ ?_ ?_
                  · rfl
                  · rfl
                  · rfl
              | some p2 =>
                  try dsimp only
                  obtain ⟨t2, ht21, ht22⟩ := hh p2 hhp2
                  refine final_ok s ?_ hqn ?_ ?_ ?_
                  · exact setSpecialAt_tiles_self _ p2 "guide" t2 ht21 ht22
                  · exact (setSpecialAt_frame _ p2 "guide").1
                  · exact (setSpecialAt_frame _ p2 "guide").2.1
          | some p =>
              try dsimp only
              obtain ⟨t, htq1, htq2⟩ := hq p hqp2
              rw [(setSpecialAt_frame _ p "quest").2.2.1]
              try dsimp only
              cases hhp2 : s.helper_npc with
              | none =>
                  refine final_ok s ?_ hqn ?_ ?_ ?_
                  · exact setSpecialAt_tiles_self _ p "quest" t htq1 htq2
                  · exact (setSpecialAt_frame _ p "quest").1
                  · exact (setSpecialAt_frame _ p "quest").2.1
              | some p2 =>
                  try dsimp only
                  obtain ⟨t2, ht21, ht22⟩ := hh p2 hhp2
                  refine final_ok s ?_ hqn ?_ ?_ ?_
                  · exact Eq.trans
                      (setSpecialAt_tiles_self _ p2 "guide" t2
                        (by
                by_cases hpp : p2 = p
                · subst hpp
                  rw [htq1] at ht21
                  injection ht21 with ht2eq
                  rw [← ht2eq, htq2] at ht22
                  exact absurd ht22 (by decide)
                · rw [tmGet_setSpecialAt_other _ _ _ _ hpp]
                  exact ht21) ht22)
                      (setSpecialAt_tiles_self _ p "quest" t htq1 htq2)
                  · exact Eq.trans ((setSpecialAt_frame _ p2 "guide").1)
                      ((setSpecialAt_frame _ p "quest").1)
                  · exact Eq.trans ((setSpecialAt_frame _ p2 "guide").2.1)
                      ((setSpecialAt_frame _ p "quest").2.1)
  | some r =>
      try dsimp only
      cases hqr : questRead s r with
      | none =>
          try dsimp only
          cases hqe : s.quests.isEmpty with
          | true =>
              rw [if_pos rfl]
              try dsimp only
              cases hqp2 : s.quest_npc with
              | none =>
                  try dsimp only
                  cases hhp2 : s.helper_npc with
                  | none =>
                      refine final_ok s ?_ hqn ?_ ?_ ?_
                      · rfl
                      · rfl
                      · rfl
                  | some p2 =>
                      try dsimp only
                      obtain ⟨t2, ht21, ht22⟩ := hh p2 hhp2
                      refine final_ok s ?_ hqn ?_ ?_ ?_
                      · exact setSpecialAt_tiles_self _ p2 "guide" t2 ht21 ht22
                      · exact (setSpecialAt_frame _ p2 "guide").1
                      · exact (setSpecialAt_frame _ p2 "guide").2.1
              | some p =>
                  try dsimp only
                  obtain ⟨t, htq1, htq2⟩ := hq p hqp2
                  rw [(setSpecialAt_frame _ p "quest").2.2.1]
                  try dsimp only
                  cases hhp2 : s.helper_npc with
                  | none =>
                      refine final_ok s ?_ hqn ?_ ?_ ?_
                      · exact setSpecialAt_tiles_self _ p "quest" t htq1 htq2
                      · exact (setSpecialAt_frame _ p "quest").1
                      · exact (setSpecialAt_frame _ p "quest").2.1
                  | some p2 =>
                      try dsimp only
                      obtain ⟨t2, ht21, ht22⟩ := hh p2 hhp2
                      refine final_ok s ?_ hqn ?_ ?_ ?_
                      · exact Eq.trans
                          (setSpecialAt_tiles_self _ p2 "guide" t2
                            (by
                by_cases hpp : p2 = p
                · subst hpp
                  rw [htq1] at ht21
                  injection ht21 with ht2eq
                  rw [← ht2eq, htq2] at ht22
                  exact absurd ht22 (by decide)
                · rw [tmGet_setSpecialAt_other _ _ _ _ hpp]
                  exact ht21) ht22)
                          (setSpecialAt_tiles_self _ p "quest" t htq1 htq2)
                      · exact Eq.trans ((setSpecialAt_frame _ p2 "guide").1)
                          ((setSpecialAt_frame _ p "quest").1)
                      · exact Eq.trans ((setSpecialAt_frame _ p2 "guide").2.1)
                          ((setSpecialAt_frame _ p "quest").2.1)
          | false =>
              simp only [Bool.false_eq_true, if_false]
              try dsimp only
              cases hqp2 : s.quest_npc with
              | none =>
                  try dsimp only
                  cases hhp2 : s.helper_npc with
                  | none =>
                      refine final_ok s ?_ hqn ?_ ?_ ?_
                      · rfl
                      · rfl
                      · rfl
                  | some p2 =>
                      try dsimp only
                      obtain ⟨t2, ht21, ht22⟩ := hh p2 hhp2
                      refine final_ok s ?_ hqn ?_ ?_ ?_
                      · exact setSpecialAt_tiles_self _ p2 "guide" t2 ht21 ht22
                      · exact (setSpecialAt_frame _ p2 "guide").1
                      · exact (setSpecialAt_frame _ p2 "guide").2.1
              | some p =>
                  try dsimp only
                  obtain ⟨t, htq1, htq2⟩ := hq p hqp2
                  rw [(setSpecialAt_frame _ p "quest").2.2.1]
                  try dsimp only
                  cases hhp2 : s.helper_npc with
                  | none =>
                      refine final_ok s ?_ hqn ?_ ?_ ?_
                      · exact setSpecialAt_tiles_self _ p "quest" t htq1 htq2
                      · exact (setSpecialAt_frame _ p "quest").1
                      · exact (setSpecialAt_frame _ p "quest").2.1
                  | some p2 =>
                      try dsimp only
                      obtain ⟨t2, ht21, ht22⟩ := hh p2 hhp2
                      refine final_ok s ?_ hqn ?_ ?_ ?_
                      · exact Eq.trans
                          (setSpecialAt_tiles_self _ p2 "guide" t2
                            (by
                by_cases hpp : p2 = p
                · subst hpp
                  rw [htq1] at ht21
                  injection ht21 with ht2eq
                  rw [← ht2eq, htq2] at ht22
                  exact absurd ht22 (by decide)
                · rw [tmGet_setSpecialAt_other _ _ _ _ hpp]
                  exact ht21) ht22)
                          (setSpecialAt_tiles_self _ p "quest" t htq1 htq2)
                      · exact Eq.trans ((setSpecialAt_frame _ p2 "guide").1)
                          ((setSpecialAt_frame _ p "quest").1)
                      · exact Eq.trans ((setSpecialAt_frame _ p2 "guide").2.1)
                          ((setSpecialAt_frame _ p "quest").2.1)
      | some q =>
          try dsimp only
          try dsimp only
          cases hqp2 : s.quest_npc with
          | none =>
              try dsimp only
              cases hhp2 : s.helper_npc with
              | none =>
                  refine final_ok s ?_ hqn ?_ ?_ ?_
                  · rfl
                  · rfl
                  · rfl
              | some p2 =>
                  try dsimp only
                  obtain ⟨t2, ht21, ht22⟩ := hh p2 hhp2
                  refine final_ok s ?_ hqn ?_ ?_ ?_
                  · exact setSpecialAt_tiles_self _ p2 "guide" t2 ht21 ht22
                  · exact (setSpecialAt_frame _ p2 "guide").1
                  · exact (setSpecialAt_frame _ p2 "guide").2.1
          | some p =>
              try dsimp only
              obtain ⟨t, htq1, htq2⟩ := hq p hqp2
              rw [(setSpecialAt_frame _ p "quest").2.2.1]
              try dsimp only
              cases hhp2 : s.helper_npc with
              | none =>
                  refine final_ok s ?_ hqn ?_ ?_ ?_
                  · exact setSpecialAt_tiles_self _ p "quest" t htq1 htq2
                  · exact (setSpecialAt_frame _ p "quest").1
                  · exact (setSpecialAt_frame _ p "quest").2.1
              | some p2 =>
                  try dsimp only
                  obtain ⟨t2, ht21, ht22⟩ := hh p2 hhp2
                  refine final_ok s ?_ hqn ?_ ?_ ?_
                  · exact Eq.trans
                      (setSpecialAt_tiles_self _ p2 "guide" t2
                        (by
                by_cases hpp : p2 = p
                · subst hpp
                  rw [htq1] at ht21
                  injection ht21 with ht2eq
                  rw [← ht2eq, htq2] at ht22
                  exact absurd ht22 (by decide)
                · rw [tmGet_setSpecialAt_other _ _ _ _ hpp]
                  exact ht21) ht22)
                      (setSpecialAt_tiles_self _ p "quest" t htq1 htq2)
                  · exact Eq.trans ((setSpecialAt_frame _ p2 "guide").1)
                      ((setSpecialAt_frame _ p "quest").1)
                  · exact Eq.trans ((setSpecialAt_frame _ p2 "guide").2.1)
                      ((setSpecialAt_frame _ p "quest").2.1)

/-- A saved game with no agents at all. -/
def c4Empty : GameState :=
  { tiles := [(((0 : ℤ), (0 : ℤ)), { x := 0, y := 0 })],
    inventory := [("gold", 5), ("wood", 0), ("dust", 0)],
    lumberjacks := [] }

/-- C4 is false as stated: loading the save of an agent-less state fabricates
a default agent, so the agent list is not reproduced. -/
theorem C4_counterexample :
    (c4Empty.load_game c4Empty.save_game).lumberjacks ≠ c4Empty.lumberjacks := by
  decide

/-- A small running-game state: one agent with a queued and a current task. -/
def c4State : GameState :=
  { tiles := [(((0 : ℤ), (0 : ℤ)), { x := 0, y := 0 })],
    inventory := [("gold", 7), ("wood", 1), ("dust", 2)],
    lumberjacks := [{ x := 0, y := 0,
                      current_task := some { kind := "patrol_fence", target := none,
                                             weight := 1, duration := 1 },
                      task_queue := [{ kind := "haul_storage", target := some (0, 0),
                                       weight := 2, duration := 3 }] }] }

theorem C4_roundtrip_witness :
    (c4State.load_game c4State.save_game).tiles = c4State.tiles ∧
    (c4State.load_game c4State.save_game).lumberjacks = c4State.lumberjacks ∧
    (c4State.load_game c4State.save_game).inventory = c4State.inventory :=
  C4_roundtrip c4State (by decide) (by decide)
    (fun p hp => Option.noConfusion hp) (fun p hp => Option.noConfusion hp) (by decide)

/-! ### C10 -/

/-- The healths of the friendly agents, in list order. -/
def friendProj (L : List Lumberjack) : List ℚ :=
  (L.filter (fun l => l.friendly)).map (fun l => l.health)

/-- Well-formedness of the `enemies` alias list: every index points at a
live non-friendly agent. -/
def EnWf (L : List Lumberjack) (en : List ℕ) : Prop :=
  ∀ k ∈ en, ∃ e, L.get? k = some e ∧ e.friendly = false

theorem friendProj_cons (x : Lumberjack) (rest : List Lumberjack) :
    friendProj (x :: rest) =
      if x.friendly = true then x.health :: friendProj rest else friendProj rest := by
  unfold friendProj
  rw [List.filter_cons]
  by_cases hx : x.friendly = true
  · rw [if_pos hx, if_pos hx]
    rfl
  · rw [if_neg hx, if_neg hx]

/-- Overwriting an agent with one of the same allegiance and (when friendly)
the same health leaves the friendly-health projection unchanged. -/
theorem friendProj_set : ∀ (L : List Lumberjack) (i : ℕ) (l l2 : Lumberjack),
    L.get? i = some l → l2.friendly = l.friendly →
    (l.friendly = true → l2.health = l.health) →
    friendProj (L.set i l2) = friendProj L := by
  intro L
  induction L with
  | nil =>
      intro i l l2 hget _ _
      cases hget
  | cons x xs ih =>
      intro i l l2 hget hf hh
      cases i with
      | zero =>
          injection hget with he
          subst he
          show friendProj (l2 :: xs) = friendProj (x :: xs)
          rw [friendProj_cons, friendProj_cons, hf]
          by_cases hx : x.friendly = true
          · rw [if_pos hx, if_pos hx, hh hx]
          · rw [if_neg hx, if_neg hx]
      | succ i =>
          show friendProj (x :: xs.set i l2) = friendProj (x :: xs)
          rw [friendProj_cons, friendProj_cons, ih i l l2 hget hf hh]

/-- Removing a non-friendly agent leaves the projection unchanged. -/
theorem friendProj_eraseIdx : ∀ (L : List Lumberjack) (j : ℕ) (e : Lumberjack),
    L.get? j = some e → e.friendly = false →
    friendProj (L.eraseIdx j) = friendProj L := by
  intro L
  induction L with
  | nil =>
      intro j e hget _
      cases hget
  | cons x xs ih =>
      intro j e hget hef
      cases j with
      | zero =>
          injection hget with he
          subst he
          show friendProj xs = friendProj (x :: xs)
          rw [friendProj_cons, if_neg]
          rw [hef]
          exact Bool.false_ne_true
      | succ j =>
          show friendProj (x :: xs.eraseIdx j) = friendProj (x :: xs)
          rw [friendProj_cons, friendProj_cons, ih j e hget hef]

theorem get?_eraseIdx_lt {α : Type} : ∀ (l : List α) (j k : ℕ), k < j →
    (l.eraseIdx j).get? k = l.get? k := by
  intro l
  induction l with
  | nil => intro j k _; rfl
  | cons x xs ih =>
      intro j k h
      cases j with
      | zero => exact absurd h (Nat.not_lt_zero k)
      | succ j =>
          cases k with
          | zero => rfl
          | succ k => exact ih j k (Nat.lt_of_succ_lt_succ h)

theorem get?_eraseIdx_ge {α : Type} : ∀ (l : List α) (j k : ℕ), j ≤ k →
    (l.eraseIdx j).get? k = l.get? (k + 1) := by
  intro l
  induction l with
  | nil => intro j k _; rfl
  | cons x xs ih =>
      intro j k h
      cases j with
      | zero => rfl
      | succ j =>
          cases k with
          | zero => exact absurd h (by omega)
          | succ k => exact ih j k (Nat.le_of_succ_le_succ h)

theorem EnWf_set (L : List Lumberjack) (en : List ℕ) (i : ℕ) (l l2 : Lumberjack)
    (h : EnWf L en) (hget : L.get? i = some l) (hf : l2.friendly = l.friendly) :
    EnWf (L.set i l2) en := by
  intro k hk
  obtain ⟨e, he1, he2⟩ := h k hk
  by_cases hki : k = i
  · subst hki
    rw [hget] at he1
    injection he1 with he
    subst he
    exact ⟨l2, get?_set_self _ _ _ (get?_some_lt _ _ _ hget), hf.trans he2⟩
  · exact ⟨e, by rw [get?_set_other _ _ _ _ hki]; exact he1, he2⟩

theorem EnWf_removeAgent (L : List Lumberjack) (en : List ℕ) (j : ℕ) (h : EnWf L en) :
    EnWf (L.eraseIdx j)
      ((en.filter (fun k => decide (k ≠ j))).map (fun k => if j < k then k - 1 else k)) := by
  intro k2 hk2
  obtain ⟨k, hk, rfl⟩ := List.mem_map.mp hk2
  have hkmem := (List.mem_filter.mp hk).1
  have hkne : k ≠ j := by simpa using (List.mem_filter.mp hk).2
  obtain ⟨e, he1, he2⟩ := h k hkmem
  by_cases hjk : j < k
  · rw [if_pos hjk]
    refine ⟨e, ?_, he2⟩
    rw [get?_eraseIdx_ge _ _ _ (by omega), show k - 1 + 1 = k from by omega]
    exact he1
  · rw [if_neg hjk]
    refine ⟨e, ?_, he2⟩
    rw [get?_eraseIdx_lt _ _ _ (by omega)]
    exact he1

/-- Python `min(...)` returns an element of its argument list. -/
theorem pyMinBy_mem {α : Type} (f : α → ℚ) : ∀ (l : List α) (a : α), pyMinBy f a l ∈ a :: l := by
  intro l
  induction l with
  | nil => intro a; exact List.mem_singleton_self a
  | cons b t ih =>
      intro a
      show (if f b < f a then pyMinBy f b t else pyMinBy f a t) ∈ a :: b :: t
      split
      · exact List.mem_cons_of_mem a (ih b)
      · rcases List.mem_cons.mp (ih a) with h | h
        · rw [h]
          exact List.mem_cons_self _ _
        · exact List.mem_cons_of_mem a (List.mem_cons_of_mem b h)

theorem clear_enemy_event_lumberjacks (s : GameState) (ex ey : ℚ) :
    (s.clear_enemy_event ex ey).lumberjacks = s.lumberjacks := by
  unfold GameState.clear_enemy_event
  dsimp only
  split
  · split
    · rfl
    · rfl
  · rfl

/-- The target invariant: the friendly healths read `base` and the enemy
alias list is well formed. -/
def Pres (base : List ℚ) (st : GameState × List ℕ) : Prop :=
  friendProj st.1.lumberjacks = base ∧ EnWf st.1.lumberjacks st.2

theorem pres_wrap (base : List ℚ) (st : GameState × List ℕ) (s2 : GameState)
    (h : Pres base st) (heq : s2.lumberjacks = st.1.lumberjacks) :
    Pres base (s2, st.2) := by
  constructor
  · show friendProj s2.lumberjacks = base
    rw [heq]
    exact h.1
  · show EnWf s2.lumberjacks st.2
    rw [heq]
    exact h.2

theorem updAgent_pres (base : List ℚ) (s : GameState) (en : List ℕ) (i : ℕ)
    (f : Lumberjack → Lumberjack)
    (hk : ∀ a, (f a).friendly = a.friendly ∧ (a.friendly = true → (f a).health = a.health))
    (h : Pres base (s, en)) : Pres base (updAgent s i f, en) := by
  unfold updAgent
  cases hg : s.lumberjacks.get? i with
  | none => exact h
  | some l =>
      dsimp only
      constructor
      · show friendProj (s.lumberjacks.set i (f l)) = base
        rw [friendProj_set _ i l (f l) hg (hk l).1 (hk l).2]
        exact h.1
      · show EnWf (s.lumberjacks.set i (f l)) en
        exact EnWf_set _ _ i l (f l) h.2 hg (hk l).1

/-- The nearest-enemy attack of the protective pass preserves the friendly
healths and the alias list. -/
theorem friendAttack_pres (base : List ℚ) (dt : ℚ) (acc : GameState × List ℕ) (fp : ℚ × ℚ)
    (h : Pres base acc) : Pres base (friendAttack dt acc fp) := by
  unfold friendAttack
  dsimp only
  cases hen : acc.2 with
  | nil => exact h
  | cons k0 ks =>
      dsimp only
      split
      · exact ⟨h.1, h.2⟩
      · rename_i enemy heq
        have hwf2 : EnWf acc.1.lumberjacks (k0 :: ks) := hen ▸ h.2
        obtain ⟨e, he1, he2⟩ := hwf2 _ (pyMinBy_mem _ ks k0)
        rw [heq] at he1
        injection he1 with he
        subst he
        split
        · split
          · constructor
            · rw [clear_enemy_event_lumberjacks]
              dsimp only [removeAgentAt]
              rw [friendProj_eraseIdx _ _ _ (get?_set_self _ _ _ (get?_some_lt _ _ _ heq))
                (by exact he2)]
              rw [friendProj_set _ _ _ _ heq]
              · exact h.1
              · rfl
              · intro hf
                exact absurd (he2 ▸ hf) (by decide)
            · rw [clear_enemy_event_lumberjacks]
              dsimp only [removeAgentAt]
              exact EnWf_removeAgent _ _ _ (EnWf_set _ _ _ _ _ hwf2 heq rfl)
          · constructor
            · rw [friendProj_set _ _ _ _ heq]
              · exact h.1
              · rfl
              · intro hf
                exact absurd (he2 ▸ hf) (by decide)
            · exact EnWf_set _ _ _ _ _ hwf2 heq rfl
        · exact ⟨h.1, h.2⟩

/-- The whole protective pass preserves the invariant. -/
theorem protectPass_pres (base : List ℚ) (dt : ℚ) (s : GameState) (en : List ℕ)
    (h : Pres base (s, en)) : Pres base (protectPass dt s en) := by
  unfold protectPass
  exact foldl_preserves (Pres base) (friendAttack dt)
    (fun a b ha => friendAttack_pres base dt a b ha) _ _ h

/-- `next_task` keeps the agent's allegiance and health. -/
theorem nextTask_keeps (l : Lumberjack) :
    (nextTask l).1.friendly = l.friendly ∧ (nextTask l).1.health = l.health := by
  unfold nextTask
  cases l.current_task with
  | some t => exact ⟨rfl, rfl⟩
  | none =>
      dsimp only
      cases l.task_queue with
      | nil => exact ⟨rfl, rfl⟩
      | cons t rest => exact ⟨rfl, rfl⟩

/-- The scheduler keeps the agent's allegiance and health. -/
theorem assign_keeps (s : GameState) (sq : ℚ → ℚ) (x : Lumberjack) :
    (s.assign_task_to_lumberjack sq x).1.friendly = x.friendly ∧
      (s.assign_task_to_lumberjack sq x).1.health = x.health := by
  unfold GameState.assign_task_to_lumberjack
  split
  · exact ⟨rfl, rfl⟩
  · split
    · exact ⟨rfl, rfl⟩
    · dsimp only
      split
      · split
        · exact ⟨rfl, rfl⟩
        · exact ⟨rfl, rfl⟩
      · exact ⟨rfl, rfl⟩

theorem updAgent_pres_task (base : List ℚ) (s s1 : GameState) (en : List ℕ) (i : ℕ)
    (f : Lumberjack → Lumberjack)
    (hk : ∀ a, (f a).friendly = a.friendly ∧ (a.friendly = true → (f a).health = a.health))
    (h : Pres base (s, en)) (heq : s1.lumberjacks = s.lumberjacks) :
    Pres base (updAgent s1 i f, en) := by
  have h1 : Pres base (s1, en) := by
    constructor
    · show friendProj s1.lumberjacks = base
      rw [heq]
      exact h.1
    · show EnWf s1.lumberjacks en
      rw [heq]
      exact h.2
  exact updAgent_pres base s1 en i f hk h1

/-- `resolve_task` preserves the friendly healths and the alias list: every
agent mutation it performs keeps allegiance and health, and the state
mutations touch tiles, inventory and quests only. -/
theorem resolve_task_pres (base : List ℚ) (s : GameState) (dt : ℚ) (i : ℕ) (task : Task)
    (tA : Option Coord) (en : List ℕ) (h : Pres base (s, en)) :
    Pres base (s.resolve_task dt i task tA, en) := by
  unfold GameState.resolve_task
  split
  · split
    · split
      · split
        · exact updAgent_pres_task base s _ en i _ (fun a => ⟨rfl, fun _ => rfl⟩) h rfl
        · exact updAgent_pres_task base s _ en i _ (fun a => ⟨rfl, fun _ => rfl⟩) h rfl
      · exact updAgent_pres_task base s _ en i _ (fun a => ⟨rfl, fun _ => rfl⟩) h rfl
    · exact updAgent_pres_task base s _ en i _ (fun a => ⟨rfl, fun _ => rfl⟩) h rfl
  · split
    · dsimp only
      split
      · exact updAgent_pres_task base s _ en i _ (fun a => ⟨rfl, fun _ => rfl⟩) h rfl
      · exact updAgent_pres_task base s _ en i _ (fun a => ⟨rfl, fun _ => rfl⟩) h rfl
    · split
      · dsimp only
        split
        · split
          · refine updAgent_pres_task base s _ en i _ (fun a => ⟨rfl, fun _ => rfl⟩) h ?_
            split
            · rfl
            · rfl
          · exact updAgent_pres_task base s _ en i _ (fun a => ⟨rfl, fun _ => rfl⟩) h rfl
        · exact h
      · split
        · dsimp only
          split
          · split
            · refine updAgent_pres_task base s _ en i _ (fun a => ⟨rfl, fun _ => rfl⟩) h ?_
              split
              · split
                · exact (progress_quest_frame _ "plant_tree").2.2
                · rfl
              · rfl
            · exact updAgent_pres_task base s _ en i _ (fun a => ⟨rfl, fun _ => rfl⟩) h rfl
          · exact h
        · split
          · dsimp only
            split
            · exact updAgent_pres_task base s _ en i _ (fun a => ⟨rfl, fun _ => rfl⟩) h rfl
            · exact updAgent_pres_task base s _ en i _ (fun a => ⟨rfl, fun _ => rfl⟩) h rfl
          · split
            · dsimp only
              split
              · split
                · refine updAgent_pres_task base s _ en i _ (fun a => ⟨rfl, fun _ => rfl⟩) h ?_
                  split
                  · rfl
                  · rfl
                · exact updAgent_pres_task base s _ en i _ (fun a => ⟨rfl, fun _ => rfl⟩) h rfl
              · exact h
            · exact updAgent_pres_task base s _ en i _ (fun a => ⟨rfl, fun _ => rfl⟩) h rfl

/-- Walking to or resolving a picked task preserves the invariant, as long
as the agent's stored record is replaced by one of the same allegiance and
health. -/
theorem taskStep_pres (base : List ℚ) (dt : ℚ) (sq : ℚ → ℚ) (st : GameState × List ℕ)
    (i : ℕ) (l lC : Lumberjack) (task : Task)
    (hg : st.1.lumberjacks.get? i = some l)
    (hkf : lC.friendly = l.friendly) (hkh : l.friendly = true → lC.health = l.health)
    (h : Pres base st) : Pres base (taskStep dt sq st i lC task) := by
  have hPresC : Pres base
      (({ st.1 with lumberjacks := st.1.lumberjacks.set i lC } : GameState), st.2) := by
    constructor
    · show friendProj (st.1.lumberjacks.set i lC) = base
      rw [friendProj_set _ _ _ _ hg hkf hkh]
      exact h.1
    · exact EnWf_set _ _ _ _ _ h.2 hg hkf
  unfold taskStep
  dsimp only
  split
  · split
    · exact updAgent_pres base _ st.2 i _ (fun a => ⟨rfl, fun _ => rfl⟩) hPresC
    · split
      · exact updAgent_pres base _ st.2 i _ (fun a => ⟨rfl, fun _ => rfl⟩) hPresC
      · split
        · exact updAgent_pres base _ st.2 i _ (fun a => ⟨rfl, fun _ => rfl⟩) hPresC
        · exact resolve_task_pres base _ dt i task _ st.2 hPresC
  · split
    · exact updAgent_pres base _ st.2 i _ (fun a => ⟨rfl, fun _ => rfl⟩) hPresC
    · exact resolve_task_pres base _ dt i task _ st.2 hPresC

/-- One round of the agent loop preserves the friendly healths and the
alias list. -/
theorem processAgent_pres (base : List ℚ) (dt : ℚ) (sq : ℚ → ℚ) (st : GameState × List ℕ)
    (i : ℕ) (h : Pres base st) : Pres base (processAgent dt sq st i) := by
  unfold processAgent
  dsimp only
  cases hg : st.1.lumberjacks.get? i with
  | none => exact h
  | some l =>
      dsimp only
      split
      · -- chopping countdown branch
        have hset : Pres base
            (({ st.1 with lumberjacks := st.1.lumberjacks.set i { l with chopping := qsub l.chopping dt } } : GameState), st.2) := by
          constructor
          · show friendProj (st.1.lumberjacks.set i _) = base
            rw [friendProj_set _ _ _ _ hg]
            · exact h.1
            · rfl
            · intro _
              rfl
          · exact EnWf_set _ _ _ _ _ h.2 hg rfl
        split
        · split
          · split
            · exact updAgent_pres_task base _ _ st.2 i _ (fun a => ⟨rfl, fun _ => rfl⟩) hset
                (handle_chop_result_lumberjacks _ _ _)
            · exact hset
          · exact hset
        · exact hset
      · -- not mid-chop: combat pre-empts scheduling
        split
        · -- combat branch
          cases hen : st.2 with
          | nil => exact h
          | cons k0 ks =>
              dsimp only
              split
              · exact h
              · rename_i enemy heq
                have hwf2 : EnWf st.1.lumberjacks (k0 :: ks) := hen ▸ h.2
                obtain ⟨e, he1, he2⟩ := hwf2 _ (pyMinBy_mem _ ks k0)
                rw [heq] at he1
                injection he1 with he
                subst he
                split
                · split
                  · constructor
                    · rw [clear_enemy_event_lumberjacks]
                      dsimp only [removeAgentAt]
                      rw [friendProj_eraseIdx _ _ _
                        (get?_set_self _ _ _ (get?_some_lt _ _ _ heq)) (by exact he2)]
                      rw [friendProj_set _ _ _ _ heq]
                      · exact h.1
                      · rfl
                      · intro hf
                        exact absurd (he2 ▸ hf) (by decide)
                    · rw [clear_enemy_event_lumberjacks]
                      dsimp only [removeAgentAt]
                      exact EnWf_removeAgent _ _ _ (EnWf_set _ _ _ _ _ hwf2 heq rfl)
                  · constructor
                    · rw [friendProj_set _ _ _ _ heq]
                      · exact h.1
                      · rfl
                      · intro hf
                        exact absurd (he2 ▸ hf) (by decide)
                    · exact EnWf_set _ _ _ _ _ hwf2 heq rfl
                · constructor
                  · rw [friendProj_set _ _ _ _ hg]
                    · exact h.1
                    · rfl
                    · intro _
                      rfl
                  · exact EnWf_set _ _ _ _ _ hwf2 hg rfl
        · -- scheduling / task-resolution branch
          unfold nextTask
          try dsimp only
          cases hct : l.current_task with
          | some t =>
              try dsimp only
              cases hvd : st.1.is_task_valid t with
              | true =>
                  rw [if_pos rfl]
                  try dsimp only
                  exact taskStep_pres base dt sq st i l l t hg rfl (fun _ => rfl) h
              | false =>
                  rw [if_neg (by exact Bool.false_ne_true)]
                  try dsimp only
                  cases hasg : (st.1.assign_task_to_lumberjack sq { l with current_task := none }).2 with
                  | some t2 =>
                      try dsimp only
                      refine taskStep_pres base dt sq st i l _ t2 hg ?_ ?_ h
                      · exact (assign_keeps _ _ _).1
                      · intro _
                        exact (assign_keeps _ _ _).2
                  | none =>
                      try dsimp only
                      constructor
                      · rw [friendProj_set _ _ _ _ hg]
                        · exact h.1
                        · exact (assign_keeps _ _ _).1
                        · intro _
                          exact (assign_keeps _ _ _).2
                      · exact EnWf_set _ _ _ _ _ h.2 hg (assign_keeps _ _ _).1
          | none =>
              try dsimp only
              cases hq : l.task_queue with
              | nil =>
                  try dsimp only
                  cases hasg : (st.1.assign_task_to_lumberjack sq { l with current_task := none }).2 with
                  | some t2 =>
                      try dsimp only
                      refine taskStep_pres base dt sq st i l _ t2 hg ?_ ?_ h
                      · exact (assign_keeps _ _ _).1
                      · intro _
                        exact (assign_keeps _ _ _).2
                  | none =>
                      try dsimp only
                      constructor
                      · rw [friendProj_set _ _ _ _ hg]
                        · exact h.1
                        · exact (assign_keeps _ _ _).1
                        · intro _
                          exact (assign_keeps _ _ _).2
                      · exact EnWf_set _ _ _ _ _ h.2 hg (assign_keeps _ _ _).1
              | cons t rest =>
                  try dsimp only
                  cases hvd : st.1.is_task_valid t with
                  | true =>
                      rw [if_pos rfl]
                      try dsimp only
                      exact taskStep_pres base dt sq st i l _ t hg rfl (fun _ => rfl) h
                  | false =>
                      rw [if_neg (by exact Bool.false_ne_true)]
                      try dsimp only
                      cases hasg : (st.1.assign_task_to_lumberjack sq { l with task_queue := rest, current_task := none }).2 with
                      | some t2 =>
                          try dsimp only
                          refine taskStep_pres base dt sq st i l _ t2 hg ?_ ?_ h
                          · exact (assign_keeps _ _ _).1
                          · intro _
                            exact (assign_keeps _ _ _).2
                      | none =>
                          try dsimp only
                          constructor
                          · rw [friendProj_set _ _ _ _ hg]
                            · exact h.1
                            · exact (assign_keeps _ _ _).1
                            · intro _
                              exact (assign_keeps _ _ _).2
                          · exact EnWf_set _ _ _ _ _ h.2 hg (assign_keeps _ _ _).1

theorem runPass2_pres (base : List ℚ) (dt : ℚ) (sq : ℚ → ℚ) :
    ∀ (fuel i : ℕ) (st : GameState × List ℕ), Pres base st →
      Pres base (runPass2 dt sq fuel i st) := by
  intro fuel
  induction fuel with
  | zero => exact fun i st h => h
  | succ fuel ih =>
      intro i st h
      unfold runPass2
      split
      · exact ih _ _ (processAgent_pres base dt sq st i h)
      · exact h

/-- The freshly computed enemy index list is well formed. -/
theorem EnWf_enemyIdxs (L : List Lumberjack) : EnWf L (enemyIdxs L) := by
  intro k hk
  unfold enemyIdxs at hk
  have h2 := (List.mem_filter.mp hk).2
  try dsimp only at h2
  cases hg : L.get? k with
  | none =>
      rw [hg] at h2
      simp at h2
  | some e =>
      rw [hg] at h2
      refine ⟨e, rfl, ?_⟩
      simpa using h2

/-- C10: one whole `update_lumberjacks` tick never changes the list of
friendly agents' healths — combat damage lands only on the hostile side
(all agent writes either target an index of the well-formed `enemies`
list or keep the written agent's allegiance and health), so a friendly
agent is never hurt or removed by combat; only the explicit dismiss action
(`remove_friend_at`) can drop a friendly agent. -/
theorem C10_friendly_health (sq : ℚ → ℚ) (s : GameState) (dt : ℚ) :
    friendProj ((update_lumberjacks sq s dt).lumberjacks) = friendProj s.lumberjacks := by
  unfold update_lumberjacks
  try dsimp only
  have h0 : Pres (friendProj s.lumberjacks) (s, enemyIdxs s.lumberjacks) :=
    ⟨rfl, EnWf_enemyIdxs s.lumberjacks⟩
  have h1 := protectPass_pres (friendProj s.lumberjacks) dt s (enemyIdxs s.lumberjacks) h0
  exact (runPass2_pres (friendProj s.lumberjacks) dt sq
    (protectPass dt s (enemyIdxs s.lumberjacks)).1.lumberjacks.length 0
    (protectPass dt s (enemyIdxs s.lumberjacks)) h1).1

end Sim
